import Mathlib

set_option maxHeartbeats 1000000
set_option maxRecDepth 100000

namespace Main

/-!
Shallow embedding of src/main.py (a Telegram bot-hosting platform).
Python byte strings are modelled as `List Nat` with every element below 256;
Python text strings whose content matters character by character are modelled
as `List Char`; fixed message texts are kept as `String`.
-/

/-! ## Credential vault (lines 44-63 of src/main.py) -/

/-- Loop body of `_xor_bytes`: `out[i] = data[i] ^ key[i % len(key)]`. -/
def xorLoop : List Nat → List Nat → Nat → List Nat
  | [], _, _ => []
  | b :: rest, key, i => (b ^^^ key.getD (i % key.length) 0) :: xorLoop rest key (i + 1)

/-- Embedding of `_xor_bytes`: with an empty key the data is returned unchanged. -/
def xor_bytes (data key : List Nat) : List Nat :=
  if key = [] then data else xorLoop data key 0

/-- The urlsafe base64 alphabet used by `base64.urlsafe_b64encode`. -/
def B64_ALPHABET : List Char :=
  "ABCDEFGHIJKLMNOPQRSTUVWXYZabcdefghijklmnopqrstuvwxyz0123456789-_".data

def sextetChar (s : Nat) : Char := B64_ALPHABET.getD s 'A'

def charSextet (c : Char) : Nat := B64_ALPHABET.indexOf c

/-- Embedding of `base64.urlsafe_b64encode` on byte lists, producing the
padded character form. -/
def b64encode : List Nat → List Char
  | [] => []
  | [b0] => [sextetChar (b0 / 4), sextetChar (b0 % 4 * 16), '=', '=']
  | [b0, b1] =>
    [sextetChar (b0 / 4), sextetChar (b0 % 4 * 16 + b1 / 16), sextetChar (b1 % 16 * 4), '=']
  | b0 :: b1 :: b2 :: rest =>
    sextetChar (b0 / 4) :: sextetChar (b0 % 4 * 16 + b1 / 16) ::
      sextetChar (b1 % 16 * 4 + b2 / 64) :: sextetChar (b2 % 64) :: b64encode rest

/-- Regrouping of 6-bit values into bytes, the core of `base64.urlsafe_b64decode`. -/
def sexToBytes : List Nat → List Nat
  | s0 :: s1 :: s2 :: s3 :: rest =>
    (s0 * 4 + s1 / 16) :: (s1 % 16 * 16 + s2 / 4) :: (s2 % 4 * 64 + s3) :: sexToBytes rest
  | [s0, s1] => [s0 * 4 + s1 / 16]
  | [s0, s1, s2] => [s0 * 4 + s1 / 16, s1 % 16 * 16 + s2 / 4]
  | _ => []

/-- Embedding of `base64.urlsafe_b64decode`: drop padding, map the alphabet
back to 6-bit values, regroup into bytes. -/
def b64decode (cs : List Char) : List Nat :=
  sexToBytes ((cs.filter (fun c => c != '=')).map charSextet)

/-- Embedding of `protect_token` (the token as its UTF-8 bytes, the module
level `SECRET_KEY` passed explicitly as its UTF-8 bytes). -/
def protect_token (token key : List Nat) : List Char :=
  b64encode (xor_bytes token key)

/-- Embedding of `unprotect_token`. -/
def unprotect_token (enc : List Char) (key : List Nat) : List Nat :=
  xor_bytes (b64decode enc) key

theorem charSextet_sextetChar : ∀ s < 64, charSextet (sextetChar s) = s := by decide

theorem sextetChar_ne_pad (s : Nat) : sextetChar s ≠ '=' := by
  by_cases h : s < 64
  · revert h
    revert s
    decide
  · unfold sextetChar
    rw [List.getD_eq_default]
    · decide
    · have : B64_ALPHABET.length = 64 := by decide
      omega

theorem sextetChar_bne_pad (s : Nat) : (sextetChar s != '=') = true := by
  simp [bne_iff_ne, sextetChar_ne_pad]

theorem pad_bne : (('=' : Char) != '=') = false := by decide

theorem b64_roundtrip (bs : List Nat) (h : ∀ b ∈ bs, b < 256) :
    b64decode (b64encode bs) = bs := by
  induction bs using b64encode.induct with
  | case1 => rfl
  | case2 b0 =>
    have hb0 : b0 < 256 := h b0 (by simp)
    simp only [b64encode, b64decode, List.filter_cons, List.filter_nil, sextetChar_bne_pad,
      pad_bne, if_true, if_false, Bool.false_eq_true, List.map_cons, List.map_nil,
      charSextet_sextetChar _ (show b0 / 4 < 64 by omega),
      charSextet_sextetChar _ (show b0 % 4 * 16 < 64 by omega), sexToBytes,
      List.cons.injEq, and_true]
    omega
  | case3 b0 b1 =>
    have hb0 : b0 < 256 := h b0 (by simp)
    have hb1 : b1 < 256 := h b1 (by simp)
    simp only [b64encode, b64decode, List.filter_cons, List.filter_nil, sextetChar_bne_pad,
      pad_bne, if_true, if_false, Bool.false_eq_true, List.map_cons, List.map_nil,
      charSextet_sextetChar _ (show b0 / 4 < 64 by omega),
      charSextet_sextetChar _ (show b0 % 4 * 16 + b1 / 16 < 64 by omega),
      charSextet_sextetChar _ (show b1 % 16 * 4 < 64 by omega), sexToBytes,
      List.cons.injEq, and_true]
    omega
  | case4 b0 b1 b2 rest ih =>
    have hb0 : b0 < 256 := h b0 (by simp)
    have hb1 : b1 < 256 := h b1 (by simp)
    have hb2 : b2 < 256 := h b2 (by simp)
    have ih' : sexToBytes (((b64encode rest).filter (fun c => c != '=')).map charSextet)
        = rest := by
      have := ih (fun b hb => h b (by simp [hb]))
      simpa [b64decode] using this
    simp only [b64encode, b64decode, List.filter_cons, sextetChar_bne_pad, if_true,
      List.map_cons,
      charSextet_sextetChar _ (show b0 / 4 < 64 by omega),
      charSextet_sextetChar _ (show b0 % 4 * 16 + b1 / 16 < 64 by omega),
      charSextet_sextetChar _ (show b1 % 16 * 4 + b2 / 64 < 64 by omega),
      charSextet_sextetChar _ (show b2 % 64 < 64 by omega), sexToBytes,
      List.cons.injEq]
    refine ⟨by omega, by omega, by omega, ih'⟩

theorem xorLoop_involutive (data key : List Nat) (i : Nat) :
    xorLoop (xorLoop data key i) key i = data := by
  induction data generalizing i with
  | nil => rfl
  | cons b rest ih => simp [xorLoop, ih, Nat.xor_cancel_right]

theorem xorLoop_lt (data key : List Nat) (i : Nat) (hd : ∀ b ∈ data, b < 256)
    (hk : ∀ b ∈ key, b < 256) : ∀ b ∈ xorLoop data key i, b < 256 := by
  induction data generalizing i with
  | nil => intro b hb; simp [xorLoop] at hb
  | cons a rest ih =>
    intro b hb
    simp only [xorLoop, List.mem_cons] at hb
    rcases hb with hb | hb
    · subst hb
      have ha : a < 256 := hd a (by simp)
      have hkd : key.getD (i % key.length) 0 < 256 := by
        rcases key with _ | ⟨k0, ks⟩
        · simp [List.getD]
        · have hlen : i % (k0 :: ks).length < (k0 :: ks).length :=
            Nat.mod_lt _ (by simp)
          rw [List.getD_eq_getElem _ _ hlen]
          exact hk _ (List.getElem_mem hlen)
      have : a ^^^ key.getD (i % key.length) 0 < 2 ^ 8 :=
        Nat.xor_lt_two_pow (n := 8) (by omega) (by omega)
      omega
    · exact ih (i + 1) (fun x hx => hd x (by simp [hx])) b hb

theorem xor_bytes_involutive (data key : List Nat) :
    xor_bytes (xor_bytes data key) key = data := by
  unfold xor_bytes
  by_cases h : key = [] <;> simp [h, xorLoop_involutive]

theorem xor_bytes_lt (data key : List Nat) (hd : ∀ b ∈ data, b < 256)
    (hk : ∀ b ∈ key, b < 256) : ∀ b ∈ xor_bytes data key, b < 256 := by
  unfold xor_bytes
  by_cases h : key = []
  · simpa [h] using hd
  · simpa [h] using xorLoop_lt data key 0 hd hk

/-- C3: for every byte string `s` and every passphrase `k` (UTF-8 bytes,
including the empty passphrase), unprotecting the protected form returns the
original byte string: `unprotect_token (protect_token s k) k = s`. -/
theorem C3_protect_unprotect_roundtrip (s key : List Nat)
    (hs : ∀ b ∈ s, b < 256) (hk : ∀ b ∈ key, b < 256) :
    unprotect_token (protect_token s key) key = s := by
  unfold protect_token unprotect_token
  rw [b64_roundtrip _ (xor_bytes_lt s key hs hk), xor_bytes_involutive]

/-- Witness for C3 at a concrete byte string and passphrase, and at the empty
passphrase. -/
theorem C3_protect_unprotect_roundtrip_witness :
    ((∀ b ∈ [104, 105, 0, 255], b < 256) ∧ (∀ b ∈ [7, 200], b < 256) ∧
      unprotect_token (protect_token [104, 105, 0, 255] [7, 200]) [7, 200]
        = [104, 105, 0, 255]) ∧
    unprotect_token (protect_token [104, 105, 0, 255] []) [] = [104, 105, 0, 255] :=
  ⟨⟨by decide, by decide,
    C3_protect_unprotect_roundtrip [104, 105, 0, 255] [7, 200] (by decide) (by decide)⟩,
    C3_protect_unprotect_roundtrip [104, 105, 0, 255] [] (by decide) (by decide)⟩

/-! ## Python string helpers (safe_caption, line 293-297 of src/main.py) -/

/-- The ASCII whitespace characters stripped by the Python str.strip family. -/
def pyIsSpace (c : Char) : Bool :=
  c == ' ' || c == '\t' || c == '\n' || c == '\x0b' || c == '\x0c' || c == '\r'

/-- Embedding of Python str.strip() on character lists. -/
def pyStrip (s : List Char) : List Char :=
  ((s.dropWhile pyIsSpace).reverse.dropWhile pyIsSpace).reverse

/-- Embedding of Python str.rstrip() on character lists. -/
def pyRstrip (s : List Char) : List Char :=
  (s.reverse.dropWhile pyIsSpace).reverse

/-- Embedding of `safe_caption` with its default limit 950: strip, and when
over the limit truncate to the limit, right-strip, and append an ellipsis. -/
def safe_caption (text : List Char) : List Char :=
  let t := pyStrip text
  if t.length > 950 then pyRstrip (t.take 950) ++ ['.', '.', '.'] else t

/-! ## The persisted store (the sqlite schema, lines 66-261 of src/main.py).
Each table is a list of rows kept in insertion order, which also reflects the
ascending created_ts order the queries use.  AUTOINCREMENT is modelled with a
next_sub_id counter. -/

structure BotRow where
  owner_id : Int
  bot_username : String
  bot_id : Int
  token_enc : List Char
  active : Bool
  created_ts : Nat
deriving DecidableEq, Repr

structure DestRow where
  bot_id : Int
  target_chat_id : Int
  target_thread_id : Int
  created_ts : Nat
  active : Bool
deriving DecidableEq, Repr

structure SubRow where
  id : Nat
  bot_id : Int
  owner_id : Int
  user_id : Int
  kind : String
  file_id : Option String
  text : List Char
  status : String
deriving DecidableEq, Repr

structure MapRow where
  bot_id : Int
  owner_id : Int
  admin_msg_id : Nat
  submission_id : Nat
deriving DecidableEq, Repr

structure Store where
  hosted_bots : List BotRow
  hosted_destinations : List DestRow
  hosted_user_intro : List (Int × Int)
  hosted_submissions : List SubRow
  next_sub_id : Nat
  hosted_admin_map : List MapRow
deriving DecidableEq, Repr

/-- Embedding of `add_hosted_bot`: INSERT OR REPLACE on UNIQUE(owner_id, bot_id),
storing the protected token with active=1. -/
def add_hosted_bot (st : Store) (owner_id bot_id : Int) (bot_username : String)
    (token key : List Nat) (ts : Nat) : Store :=
  { st with hosted_bots :=
      (st.hosted_bots.filter
        (fun b => !(b.owner_id == owner_id && b.bot_id == bot_id))) ++
      [{ owner_id := owner_id, bot_username := bot_username, bot_id := bot_id,
         token_enc := protect_token token key, active := true, created_ts := ts }] }

/-- Embedding of `set_hosted_bot_active`: UPDATE on owner_id and bot_id. -/
def set_hosted_bot_active (st : Store) (owner_id bot_id : Int) (active : Bool) : Store :=
  { st with hosted_bots :=
      st.hosted_bots.map (fun b =>
        if b.owner_id == owner_id && b.bot_id == bot_id
        then { b with active := active } else b) }

/-- Embedding of `remove_hosted_bot`: the hosted_bots row is deleted on
owner_id and bot_id together, every dependent table on bot_id alone. -/
def remove_hosted_bot (st : Store) (owner_id bot_id : Int) : Store :=
  { st with
    hosted_bots := st.hosted_bots.filter
      (fun b => !(b.owner_id == owner_id && b.bot_id == bot_id)),
    hosted_destinations := st.hosted_destinations.filter (fun d => !(d.bot_id == bot_id)),
    hosted_user_intro := st.hosted_user_intro.filter (fun p => !(p.1 == bot_id)),
    hosted_submissions := st.hosted_submissions.filter (fun s => !(s.bot_id == bot_id)),
    hosted_admin_map := st.hosted_admin_map.filter (fun m => !(m.bot_id == bot_id)) }

/-- Embedding of `list_all_active_bots` (the token field is dropped here:
only owner_id and bot_id feed the runner state). -/
def list_all_active_bots (st : Store) : List (Int × Int) :=
  (st.hosted_bots.filter (fun b => b.active)).map (fun b => (b.owner_id, b.bot_id))

/-- Embedding of `upsert_destination`: INSERT OR IGNORE then UPDATE active=1. -/
def upsert_destination (st : Store) (bot_id target_chat_id target_thread_id : Int)
    (ts : Nat) : Store :=
  let hit : DestRow → Bool := fun d =>
    d.bot_id == bot_id && d.target_chat_id == target_chat_id &&
      d.target_thread_id == target_thread_id
  let inserted :=
    if st.hosted_destinations.any hit then st.hosted_destinations
    else st.hosted_destinations ++
      [{ bot_id := bot_id, target_chat_id := target_chat_id,
         target_thread_id := target_thread_id, created_ts := ts, active := true }]
  { st with hosted_destinations :=
      inserted.map (fun d => if hit d then { d with active := true } else d) }

/-- Embedding of `list_destinations`: active destinations of one bot in
created_ts order. -/
def list_destinations (st : Store) (bot_id : Int) : List (Int × Int) :=
  ((st.hosted_destinations.filter (fun d => d.bot_id == bot_id && d.active)).map
    (fun d => (d.target_chat_id, d.target_thread_id)))

/-- Embedding of `intro_shown`. -/
def intro_shown (st : Store) (bot_id user_id : Int) : Bool :=
  st.hosted_user_intro.any (fun p => p.1 == bot_id && p.2 == user_id)

/-- Embedding of `mark_intro_shown`: INSERT OR REPLACE on PRIMARY KEY(bot_id, user_id). -/
def mark_intro_shown (st : Store) (bot_id user_id : Int) : Store :=
  { st with hosted_user_intro :=
      (st.hosted_user_intro.filter (fun p => !(p.1 == bot_id && p.2 == user_id))) ++
      [(bot_id, user_id)] }

/-- Embedding of `create_submission`: a fresh AUTOINCREMENT id, status pending;
returns the new id with the store. -/
def create_submission (st : Store) (bot_id owner_id user_id : Int) (kind : String)
    (file_id : Option String) (text : List Char) : Nat × Store :=
  (st.next_sub_id,
    { st with
      hosted_submissions := st.hosted_submissions ++
        [{ id := st.next_sub_id, bot_id := bot_id, owner_id := owner_id,
           user_id := user_id, kind := kind, file_id := file_id, text := text,
           status := "pending" }],
      next_sub_id := st.next_sub_id + 1 })

/-- Embedding of `get_submission`: SELECT by id. -/
def get_submission (st : Store) (sub_id : Nat) : Option SubRow :=
  st.hosted_submissions.find? (fun r => r.id == sub_id)

/-- Embedding of `set_submission_status`: UPDATE status WHERE id matches. -/
def set_submission_status (st : Store) (sub_id : Nat) (status : String) : Store :=
  { st with hosted_submissions :=
      st.hosted_submissions.map (fun r =>
        if r.id == sub_id then { r with status := status } else r) }

/-- Embedding of `map_admin_msg`: INSERT OR REPLACE on the composite primary key. -/
def map_admin_msg (st : Store) (bot_id owner_id : Int) (admin_msg_id submission_id : Nat) :
    Store :=
  { st with hosted_admin_map :=
      (st.hosted_admin_map.filter
        (fun m => !(m.bot_id == bot_id && m.owner_id == owner_id &&
          m.admin_msg_id == admin_msg_id))) ++
      [{ bot_id := bot_id, owner_id := owner_id, admin_msg_id := admin_msg_id,
         submission_id := submission_id }] }

/-- Embedding of `submission_from_admin_reply`. -/
def submission_from_admin_reply (st : Store) (bot_id owner_id : Int)
    (replied_msg_id : Nat) : Option Nat :=
  (st.hosted_admin_map.find?
    (fun m => m.bot_id == bot_id && m.owner_id == owner_id &&
      m.admin_msg_id == replied_msg_id)).map (fun m => m.submission_id)

/-! ## Hosted bot handlers (lines 264-594 of src/main.py).
Outbound gateway calls are recorded as an effect trace; the per-destination
send and the admin reply relay carry the submission id whose content they
transmit, so delivery of a given submission is observable in the trace. -/

/-- One hosted bot session configuration: bot identity plus the owner id
stored in bot_data at build time. -/
structure HostedCfg where
  bot_id : Int
  owner_id : Int
deriving DecidableEq, Repr

/-- Outbound effects of the handlers, in emission order. -/
inductive Effect where
  | answer (text : String) (alert : Bool)
  | answerEmpty
  | replyIntro (chat : Int)
  | replyOwnerMenu (chat : Int)
  | replyText (chat : Int) (text : String)
  | notifySubmission (sid : Nat) (kind : String) (file_id : Option String)
      (body : List Char)
  | clearMarkup
  | deleteMsg
  | connectConfirm (chat thread : Int)
  | destMessage (forSub : Nat) (dest : Int × Int) (text : List Char)
  | destPhoto (forSub : Nat) (dest : Int × Int) (file : Option String)
      (caption : List Char)
  | destVideo (forSub : Nat) (dest : Int × Int) (file : Option String)
      (caption : List Char)
  | failReport (dest : Int × Int)
  | relayText (chat : Int) (text : List Char)
  | relayPhoto (chat : Int) (file : String) (caption : List Char)
  | relayVideo (chat : Int) (file : String) (caption : List Char)
deriving DecidableEq, Repr

/-- Content of one private message to a hosted bot. -/
inductive DmMsg where
  | text (s : List Char)
  | photo (file_id : String) (caption : List Char)
  | video (file_id : String) (caption : List Char)
  | other
deriving DecidableEq, Repr

/-- Embedding of `hosted_start` for a private chat: show the intro once per
user per hosted bot, then the owner menu for the owner. -/
def hosted_start (st : Store) (cfg : HostedCfg) (uid : Int) : Store × List Effect :=
  let s1 := if intro_shown st cfg.bot_id uid then (st, ([] : List Effect))
    else (mark_intro_shown st cfg.bot_id uid, [Effect.replyIntro uid])
  if cfg.owner_id ≠ 0 ∧ uid = cfg.owner_id then (s1.1, s1.2 ++ [Effect.replyOwnerMenu uid])
  else s1

/-- The fixed submission-notification body: header plus the submitted text,
as built in `hosted_user_dm`. -/
def notifHeader (sid : Nat) (kindLabel : String) : List Char :=
  ("📥 <b>Submission</b>\nID: <code>" ++ toString sid ++
    "</code>\nType: <b>" ++ kindLabel ++ "</b>").data

/-- Embedding of `hosted_user_dm` for a private chat: intro once, owner
messages ignored here, then a pending submission is created and forwarded to
the owner with the approve/reject keyboard; `msgId` is the gateway-assigned
id of the forwarded notification. -/
def hosted_user_dm (st : Store) (cfg : HostedCfg) (uid : Int) (msg : DmMsg)
    (msgId : Nat) : Store × List Effect :=
  let s1 := if intro_shown st cfg.bot_id uid then (st, ([] : List Effect))
    else (mark_intro_shown st cfg.bot_id uid, [Effect.replyIntro uid])
  if uid = cfg.owner_id then s1
  else
    match msg with
    | DmMsg.text s =>
      if s ≠ [] ∧ s.head? ≠ some '/' then
        let c := create_submission s1.1 cfg.bot_id cfg.owner_id uid "text" none s
        let st2 := map_admin_msg c.2 cfg.bot_id cfg.owner_id msgId c.1
        (st2, s1.2 ++ [Effect.notifySubmission c.1 "text" none
          (notifHeader c.1 "TEXT" ++ '\n' :: '\n' :: s)])
      else s1
    | DmMsg.photo file_id cap =>
      let c := create_submission s1.1 cfg.bot_id cfg.owner_id uid "photo" (some file_id) cap
      let st2 := map_admin_msg c.2 cfg.bot_id cfg.owner_id msgId c.1
      (st2, s1.2 ++ [Effect.notifySubmission c.1 "photo" (some file_id)
        (if cap ≠ [] then notifHeader c.1 "PHOTO" ++ '\n' :: '\n' :: cap
         else notifHeader c.1 "PHOTO")])
    | DmMsg.video file_id cap =>
      let c := create_submission s1.1 cfg.bot_id cfg.owner_id uid "video" (some file_id) cap
      let st2 := map_admin_msg c.2 cfg.bot_id cfg.owner_id msgId c.1
      (st2, s1.2 ++ [Effect.notifySubmission c.1 "video" (some file_id)
        (if cap ≠ [] then notifHeader c.1 "VIDEO" ++ '\n' :: '\n' :: cap
         else notifHeader c.1 "VIDEO")])
    | DmMsg.other => s1

/-- Embedding of `send_to_dest`: kind dispatch, media captions through
`safe_caption`; `forSub` records whose content is transmitted. -/
def send_to_dest (forSub : Nat) (dest : Int × Int) (kind : String)
    (file_id : Option String) (text : List Char) : List Effect :=
  if kind = "text" then [Effect.destMessage forSub dest text]
  else if kind = "photo" then [Effect.destPhoto forSub dest file_id (safe_caption text)]
  else if kind = "video" then [Effect.destVideo forSub dest file_id (safe_caption text)]
  else []

/-- The fan-out loop of the approve branch: each destination attempted
independently, a failing send replaced by one failure report naming that
destination; `sendFails` says which sends the gateway rejects. -/
def fanout (forSub : Nat) (dests : List (Int × Int)) (kind : String)
    (file_id : Option String) (text : List Char) (sendFails : Int × Int → Bool) :
    List Effect :=
  match dests with
  | [] => []
  | d :: rest =>
    (if sendFails d then [Effect.failReport d] else send_to_dest forSub d kind file_id text)
      ++ fanout forSub rest kind file_id text sendFails

/-- The no-destination error text of the approve branch. -/
def noDestMsg : String :=
  "❌ No destination connected. Add bot to group/topic and run /connect there."

/-- Embedding of `hosted_approve_reject`: owner check, submission lookup and
ownership check, pending check, then the reject or approve transition with
fan-out. -/
def hosted_approve_reject (st : Store) (cfg : HostedCfg) (fromUser : Int)
    (action : String) (sub_id : Nat) (sendFails : Int × Int → Bool) :
    Store × List Effect :=
  if fromUser ≠ cfg.owner_id then (st, [Effect.answer "Owner only." true])
  else
    match get_submission st sub_id with
    | none => (st, [Effect.answer "Not found." true])
    | some sub =>
      if sub.bot_id ≠ cfg.bot_id then (st, [Effect.answer "Not found." true])
      else if sub.status ≠ "pending" then
        (st, [Effect.answer ("Already " ++ sub.status ++ ".") true])
      else if action = "reject" then
        (set_submission_status st sub_id "rejected",
          [Effect.answer "Rejected." false, Effect.clearMarkup])
      else if action = "approve" then
        let st1 := set_submission_status st sub_id "approved"
        let dests := list_destinations st1 cfg.bot_id
        if dests = [] then
          (st1, [Effect.answer "Approved." false, Effect.clearMarkup,
            Effect.replyText fromUser noDestMsg])
        else
          (st1, [Effect.answer "Approved." false, Effect.clearMarkup] ++
            fanout sub_id dests sub.kind sub.file_id (pyStrip sub.text) sendFails)
      else (st, [])

/-- Embedding of `hosted_connect`: owner-only, group-like chats only, admin
standing required, then the destination upsert and a confirmation. -/
def hosted_connect (st : Store) (cfg : HostedCfg) (uid chatId : Int)
    (chatType : String) (isAdmin : Bool) (threadId : Int) (ts : Nat) :
    Store × List Effect :=
  if uid ≠ cfg.owner_id then (st, [])
  else if ¬(chatType = "group" ∨ chatType = "supergroup" ∨ chatType = "channel") then
    (st, [])
  else if ¬ isAdmin then (st, [])
  else
    (upsert_destination st cfg.bot_id chatId threadId ts,
      [Effect.deleteMsg, Effect.connectConfirm chatId threadId])

/-- Embedding of `hosted_owner_reply_relay`: resolve the replied-to message
through hosted_admin_map and relay the owner content to the submitter. -/
def hosted_owner_reply_relay (st : Store) (cfg : HostedCfg) (uid : Int)
    (replyTo : Option Nat) (msg : DmMsg) : Store × List Effect :=
  if uid ≠ cfg.owner_id then (st, [])
  else
    match replyTo with
    | none => (st, [])
    | some rid =>
      match submission_from_admin_reply st cfg.bot_id cfg.owner_id rid with
      | none => (st, [])
      | some sid =>
        if sid = 0 then (st, [])
        else
          match get_submission st sid with
          | none => (st, [])
          | some sub =>
            if sub.bot_id ≠ cfg.bot_id then (st, [])
            else
              match msg with
              | DmMsg.text s =>
                if s ≠ [] ∧ s.head? ≠ some '/' then (st, [Effect.relayText sub.user_id s])
                else (st, [])
              | DmMsg.photo f cap => (st, [Effect.relayPhoto sub.user_id f cap])
              | DmMsg.video f cap => (st, [Effect.relayVideo sub.user_id f cap])
              | DmMsg.other => (st, [])

/-- Embedding of `hosted_owner_buttons`: the owner menu callbacks (the two
informational reply texts are abbreviated; only their presence and addressee
matter to the properties proved here). -/
def hosted_owner_buttons (st : Store) (cfg : HostedCfg) (uid : Int) (data : String) :
    Store × List Effect :=
  if uid ≠ cfg.owner_id then (st, [Effect.answer "Not allowed." true])
  else if data = "owner:connect" then
    (st, [Effect.answerEmpty, Effect.replyText uid "connect-help"])
  else if data = "owner:groups" then
    (st, [Effect.answerEmpty, Effect.replyText uid "groups-list"])
  else if data = "owner:disconnect" then
    (set_hosted_bot_active st cfg.owner_id cfg.bot_id false,
      [Effect.answerEmpty,
        Effect.replyText uid "✅ Disconnected. This hosted bot will stop soon."])
  else (st, [])

/-- One inbound event of a hosted bot session, with the oracles each handler
consults (gateway message id, admin standing, failing sends). -/
inductive HEvent where
  | start (uid : Int)
  | dm (uid : Int) (msg : DmMsg) (msgId : Nat)
  | action (uid : Int) (act : String) (sid : Nat) (sendFails : Int × Int → Bool)
  | buttons (uid : Int) (data : String)
  | connect (uid chatId : Int) (chatType : String) (isAdmin : Bool) (threadId : Int)
      (ts : Nat)
  | reply (uid : Int) (replyTo : Option Nat) (msg : DmMsg)

/-- Dispatch of one inbound event to its handler. -/
def hstep (cfg : HostedCfg) (st : Store) : HEvent → Store × List Effect
  | HEvent.start uid => hosted_start st cfg uid
  | HEvent.dm uid msg msgId => hosted_user_dm st cfg uid msg msgId
  | HEvent.action uid act sid sendFails => hosted_approve_reject st cfg uid act sid sendFails
  | HEvent.buttons uid data => hosted_owner_buttons st cfg uid data
  | HEvent.connect uid chatId chatType isAdmin threadId ts =>
    hosted_connect st cfg uid chatId chatType isAdmin threadId ts
  | HEvent.reply uid replyTo msg => hosted_owner_reply_relay st cfg uid replyTo msg

/-- Run a sequence of inbound events, concatenating the effect traces. -/
def runEvents (cfg : HostedCfg) (st : Store) : List HEvent → Store × List Effect
  | [] => (st, [])
  | e :: rest =>
    let r := hstep cfg st e
    let r2 := runEvents cfg r.1 rest
    (r2.1, r.2 ++ r2.2)

/-! ## HostedRunner (lines 727-790 of src/main.py).
The dict of polling tasks is the running set; apps mirrors it.  Start and
stop events are logged so that a later pass doing nothing is observable. -/

structure RunnerState where
  apps : List Int
  tasks : List Int
  startLog : List Int
  stopLog : List Int
deriving DecidableEq, Repr

/-- Embedding of `HostedRunner.start_hosted`: a no-op when the bot already
has a task, otherwise the app and the polling task are registered. -/
def start_hosted (r : RunnerState) (bot_id : Int) : RunnerState :=
  if bot_id ∈ r.tasks then r
  else
    { r with
      apps := r.apps ++ [bot_id]
      tasks := r.tasks ++ [bot_id]
      startLog := r.startLog ++ [bot_id] }

/-- Embedding of `HostedRunner.stop_hosted`: a no-op when the bot has no
task, otherwise the task is cancelled and both registries are popped. -/
def stop_hosted (r : RunnerState) (bot_id : Int) : RunnerState :=
  if bot_id ∈ r.tasks then
    { r with
      apps := r.apps.erase bot_id
      tasks := r.tasks.erase bot_id
      stopLog := r.stopLog ++ [bot_id] }
  else r

/-- The first loop of `sync_from_db` over a snapshot of the running ids:
stop any running bot that is no longer active. -/
def syncStops (r : RunnerState) (snapshot active_ids : List Int) : RunnerState :=
  match snapshot with
  | [] => r
  | rid :: rest =>
    syncStops (if rid ∈ active_ids then r else stop_hosted r rid) rest active_ids

/-- The second loop of `sync_from_db`: start any active bot not running. -/
def syncStarts (r : RunnerState) (active : List (Int × Int)) : RunnerState :=
  match active with
  | [] => r
  | b :: rest => syncStarts (if b.2 ∈ r.tasks then r else start_hosted r b.2) rest

/-- Embedding of `HostedRunner.sync_from_db` against a store. -/
def sync_from_db (r : RunnerState) (st : Store) : RunnerState :=
  syncStarts (syncStops r r.tasks ((list_all_active_bots st).map (fun b => b.2)))
    (list_all_active_bots st)

/-! ## Observations on effect traces -/

/-- Destinations named in failure reports. -/
def failReports (effs : List Effect) : List (Int × Int) :=
  effs.filterMap (fun e => match e with
    | Effect.failReport d => some d
    | _ => none)

/-- Destinations that received a delivery, whatever the submission. -/
def deliveredDests (effs : List Effect) : List (Int × Int) :=
  effs.filterMap (fun e => match e with
    | Effect.destMessage _ d _ => some d
    | Effect.destPhoto _ d _ _ => some d
    | Effect.destVideo _ d _ _ => some d
    | _ => none)

/-- Destinations that received the content of one given submission. -/
def deliveriesFor (sid : Nat) (effs : List Effect) : List (Int × Int) :=
  effs.filterMap (fun e => match e with
    | Effect.destMessage s d _ => if s == sid then some d else none
    | Effect.destPhoto s d _ _ => if s == sid then some d else none
    | Effect.destVideo s d _ _ => if s == sid then some d else none
    | _ => none)

/-- How many introduction messages a trace sends to one user. -/
def countIntro (uid : Int) (effs : List Effect) : Nat :=
  (effs.filter (fun e => e == Effect.replyIntro uid)).length

/-- Lengths of the notification bodies sent to the owner at intake. -/
def notifBodyLen : Effect → Option Nat
  | Effect.notifySubmission _ _ _ body => some body.length
  | _ => none

/-- Notification bodies sent to the owner at intake. -/
def notifBody : Effect → Option (List Char)
  | Effect.notifySubmission _ _ _ body => some body
  | _ => none

/-! ## Fan-out lemmas -/

theorem failReports_append (a b : List Effect) :
    failReports (a ++ b) = failReports a ++ failReports b := by
  simp [failReports, List.filterMap_append]

theorem deliveredDests_append (a b : List Effect) :
    deliveredDests (a ++ b) = deliveredDests a ++ deliveredDests b := by
  simp [deliveredDests, List.filterMap_append]

theorem deliveriesFor_append (sid : Nat) (a b : List Effect) :
    deliveriesFor sid (a ++ b) = deliveriesFor sid a ++ deliveriesFor sid b := by
  simp [deliveriesFor, List.filterMap_append]

theorem countIntro_append (uid : Int) (a b : List Effect) :
    countIntro uid (a ++ b) = countIntro uid a + countIntro uid b := by
  simp [countIntro, List.filter_append]

theorem failReports_fanout (sid : Nat) (dests : List (Int × Int)) (kind : String)
    (fid : Option String) (txt : List Char) (f : Int × Int → Bool) :
    failReports (fanout sid dests kind fid txt f) = dests.filter f := by
  induction dests with
  | nil => rfl
  | cons d rest ih =>
    rw [fanout, failReports_append, ih, List.filter_cons]
    by_cases hd : f d = true
    · simp [hd, failReports]
    · simp only [Bool.not_eq_true] at hd
      simp only [hd, Bool.false_eq_true, if_false]
      unfold send_to_dest
      split_ifs <;> simp [failReports]

theorem deliveriesFor_fanout (sid : Nat) (dests : List (Int × Int)) (kind : String)
    (fid : Option String) (txt : List Char) (f : Int × Int → Bool)
    (hk : kind = "text" ∨ kind = "photo" ∨ kind = "video") :
    deliveriesFor sid (fanout sid dests kind fid txt f)
      = dests.filter (fun d => !f d) := by
  induction dests with
  | nil => rfl
  | cons d rest ih =>
    rw [fanout, deliveriesFor_append, ih, List.filter_cons]
    by_cases hd : f d = true
    · simp [hd, deliveriesFor]
    · simp only [Bool.not_eq_true] at hd
      simp only [hd, Bool.not_false, if_true]
      rcases hk with h | h | h <;> subst h <;> simp [send_to_dest, deliveriesFor]

theorem deliveredDests_fanout (sid : Nat) (dests : List (Int × Int)) (kind : String)
    (fid : Option String) (txt : List Char) (f : Int × Int → Bool)
    (hk : kind = "text" ∨ kind = "photo" ∨ kind = "video") :
    deliveredDests (fanout sid dests kind fid txt f)
      = dests.filter (fun d => !f d) := by
  induction dests with
  | nil => rfl
  | cons d rest ih =>
    rw [fanout, deliveredDests_append, ih, List.filter_cons]
    by_cases hd : f d = true
    · simp [hd, deliveredDests]
    · simp only [Bool.not_eq_true] at hd
      simp only [hd, Bool.not_false, if_true]
      rcases hk with h | h | h <;> subst h <;> simp [send_to_dest, deliveredDests]

theorem deliveriesFor_fanout_other (sid sid2 : Nat) (dests : List (Int × Int))
    (kind : String) (fid : Option String) (txt : List Char) (f : Int × Int → Bool)
    (h : sid2 ≠ sid) :
    deliveriesFor sid (fanout sid2 dests kind fid txt f) = [] := by
  induction dests with
  | nil => rfl
  | cons d rest ih =>
    rw [fanout, deliveriesFor_append, ih]
    by_cases hd : f d = true
    · simp [hd, deliveriesFor]
    · simp only [Bool.not_eq_true] at hd
      simp only [hd, Bool.false_eq_true, if_false, List.append_nil]
      unfold send_to_dest
      split_ifs <;> simp [deliveriesFor, h]

theorem deliveriesFor_fanout_allfail (sid sid2 : Nat) (dests : List (Int × Int))
    (kind : String) (fid : Option String) (txt : List Char) (f : Int × Int → Bool)
    (h : ∀ d ∈ dests, f d = true) :
    deliveriesFor sid (fanout sid2 dests kind fid txt f) = [] := by
  induction dests with
  | nil => rfl
  | cons d rest ih =>
    have hd : f d = true := h d (by simp)
    rw [fanout, deliveriesFor_append, ih (fun x hx => h x (by simp [hx]))]
    simp [hd, deliveriesFor]

/-! ## Concrete fixtures for witnesses -/

def emptyStore : Store :=
  { hosted_bots := [], hosted_destinations := [], hosted_user_intro := [],
    hosted_submissions := [], next_sub_id := 1, hosted_admin_map := [] }

def wCfg : HostedCfg := { bot_id := 100, owner_id := 1 }

def wSub : SubRow :=
  { id := 1, bot_id := 100, owner_id := 1, user_id := 5, kind := "text",
    file_id := none, text := "hello".data, status := "pending" }

def wBot : BotRow :=
  { owner_id := 1, bot_username := "wb", bot_id := 100, token_enc := [],
    active := true, created_ts := 0 }

def wDest : DestRow :=
  { bot_id := 100, target_chat_id := 200, target_thread_id := 0,
    created_ts := 1, active := true }

def wStore : Store :=
  { hosted_bots := [wBot], hosted_destinations := [wDest],
    hosted_user_intro := [(100, 5)], hosted_submissions := [wSub],
    next_sub_id := 2,
    hosted_admin_map :=
      [{ bot_id := 100, owner_id := 1, admin_msg_id := 10, submission_id := 1 }] }

def wStoreNoDest : Store := { wStore with hosted_destinations := [] }

/-- Number of occurrences of one element in a list. -/
def countOcc {A : Type} [DecidableEq A] (d : A) (l : List A) : Nat :=
  (l.filter (fun x => x == d)).length

theorem countOcc_eq_one {A : Type} [DecidableEq A] {d : A} {l : List A}
    (h : l.Nodup) (hm : d ∈ l) : countOcc d l = 1 := by
  induction l with
  | nil => simp at hm
  | cons a t ih =>
    rcases List.mem_cons.mp hm with h1 | h1
    · subst h1
      have hnt : d ∉ t := (List.nodup_cons.mp h).1
      have : t.filter (fun x => x == d) = [] := by
        rw [List.filter_eq_nil_iff]
        intro x hx
        simp only [beq_iff_eq]
        intro hxd
        exact hnt (hxd ▸ hx)
      simp [countOcc, List.filter_cons, this]
    · have hda : ¬(a == d) = true := by
        simp only [beq_iff_eq]
        intro he
        exact (List.nodup_cons.mp h).1 (he ▸ h1)
      have := ih (List.nodup_cons.mp h).2 h1
      unfold countOcc at this ⊢
      rw [List.filter_cons, if_neg (by simpa using hda)]
      exact this

/-- C4: during fan-out each destination is attempted independently: every
failing destination yields exactly one failure report naming it, every
non-failing destination still receives exactly one delivery, and the reports
and deliveries are exactly the failing and the non-failing destinations. -/
theorem C4_fanout_isolation (sid : Nat) (dests : List (Int × Int)) (kind : String)
    (fid : Option String) (txt : List Char) (f : Int × Int → Bool)
    (hk : kind = "text" ∨ kind = "photo" ∨ kind = "video")
    (hnd : dests.Nodup) :
    (∀ d ∈ dests, f d = true →
      countOcc d (failReports (fanout sid dests kind fid txt f)) = 1) ∧
    (∀ d ∈ dests, f d = false →
      countOcc d (deliveredDests (fanout sid dests kind fid txt f)) = 1) ∧
    failReports (fanout sid dests kind fid txt f) = dests.filter f ∧
    deliveredDests (fanout sid dests kind fid txt f)
      = dests.filter (fun d => !f d) := by
  have hfr := failReports_fanout sid dests kind fid txt f
  have hdd := deliveredDests_fanout sid dests kind fid txt f hk
  refine ⟨?_, ?_, hfr, hdd⟩
  · intro d hd hf
    rw [hfr]
    exact countOcc_eq_one (hnd.filter f) (List.mem_filter.mpr ⟨hd, hf⟩)
  · intro d hd hf
    rw [hdd]
    refine countOcc_eq_one (hnd.filter _) (List.mem_filter.mpr ⟨hd, ?_⟩)
    rw [hf]
    rfl

/-- Witness for C4: destinations A, B, C with B failing: exactly one report
naming B, deliveries to exactly A and C. -/
theorem C4_fanout_isolation_witness :
    failReports (fanout 1 [((200 : Int), (0 : Int)), (201, 0), (202, 0)] "text" none
      "hi".data (fun d => d == ((201 : Int), (0 : Int)))) = [(201, 0)] ∧
    deliveredDests (fanout 1 [((200 : Int), (0 : Int)), (201, 0), (202, 0)] "text" none
      "hi".data (fun d => d == ((201 : Int), (0 : Int)))) = [(200, 0), (202, 0)] := by
  have h := C4_fanout_isolation 1 [((200 : Int), (0 : Int)), (201, 0), (202, 0)] "text"
    none "hi".data (fun d => d == ((201 : Int), (0 : Int))) (Or.inl rfl) (by decide)
  refine ⟨?_, ?_⟩
  · rw [h.2.2.1]; rfl
  · rw [h.2.2.2]; rfl

/-- C10: remove_hosted_bot deletes the worker row only when owner and bot both
match, but deletes every dependent record keyed by the bot id alone; a
non-owning caller leaves the worker row unchanged while all dependent records
of that bot are removed. -/
theorem C10_remove_hosted_bot_frame (st : Store) (uid bid : Int) :
    ((∀ b ∈ st.hosted_bots, ¬(b.owner_id = uid ∧ b.bot_id = bid)) →
      (remove_hosted_bot st uid bid).hosted_bots = st.hosted_bots) ∧
    (∀ d, d ∈ (remove_hosted_bot st uid bid).hosted_destinations ↔
      (d ∈ st.hosted_destinations ∧ ¬ d.bot_id = bid)) ∧
    (∀ p, p ∈ (remove_hosted_bot st uid bid).hosted_user_intro ↔
      (p ∈ st.hosted_user_intro ∧ ¬ p.1 = bid)) ∧
    (∀ s, s ∈ (remove_hosted_bot st uid bid).hosted_submissions ↔
      (s ∈ st.hosted_submissions ∧ ¬ s.bot_id = bid)) ∧
    (∀ m, m ∈ (remove_hosted_bot st uid bid).hosted_admin_map ↔
      (m ∈ st.hosted_admin_map ∧ ¬ m.bot_id = bid)) := by
  refine ⟨?_, ?_, ?_, ?_, ?_⟩
  · intro h
    simp only [remove_hosted_bot]
    rw [List.filter_eq_self]
    intro b hb
    rcases not_and_or.mp (h b hb) with h1 | h1 <;> simp [h1]
  all_goals intro x
  all_goals simp [remove_hosted_bot, List.mem_filter]

/-- Witness for C10: owner 2 does not own bot 100, so deleting (2, 100) keeps
the worker row but removes the destination row of bot 100. -/
theorem C10_remove_hosted_bot_frame_witness :
    ((∀ b ∈ wStore.hosted_bots, ¬(b.owner_id = 2 ∧ b.bot_id = 100)) ∧
      (remove_hosted_bot wStore 2 100).hosted_bots = wStore.hosted_bots) ∧
    wDest ∉ (remove_hosted_bot wStore 2 100).hosted_destinations := by
  refine ⟨⟨by decide, (C10_remove_hosted_bot_frame wStore 2 100).1 (by decide)⟩, ?_⟩
  intro hmem
  have h := ((C10_remove_hosted_bot_frame wStore 2 100).2.1 wDest).mp hmem
  exact h.2 (by decide)

theorem list_destinations_set_status (st : Store) (sid : Nat) (s : String) (bot : Int) :
    list_destinations (set_submission_status st sid s) bot = list_destinations st bot := rfl

/-- C7: approving a pending submission while the worker has zero active
destinations reports a visible error to the owner. -/
theorem C7_zero_destinations_report (st : Store) (cfg : HostedCfg) (sub_id : Nat)
    (sub : SubRow) (f : Int × Int → Bool)
    (h1 : get_submission st sub_id = some sub) (h2 : sub.bot_id = cfg.bot_id)
    (h3 : sub.status = "pending")
    (h4 : list_destinations st cfg.bot_id = []) :
    Effect.replyText cfg.owner_id noDestMsg ∈
      (hosted_approve_reject st cfg cfg.owner_id "approve" sub_id f).2 := by
  simp [hosted_approve_reject, h1, h2, h3, list_destinations_set_status, h4]

/-- Witness for C7 at a concrete pending submission with no destinations. -/
theorem C7_zero_destinations_report_witness :
    (get_submission wStoreNoDest 1 = some wSub ∧ wSub.bot_id = wCfg.bot_id ∧
      wSub.status = "pending" ∧ list_destinations wStoreNoDest wCfg.bot_id = []) ∧
    Effect.replyText wCfg.owner_id noDestMsg ∈
      (hosted_approve_reject wStoreNoDest wCfg wCfg.owner_id "approve" 1
        (fun _ => false)).2 :=
  ⟨⟨by decide, by decide, by decide, by decide⟩,
    C7_zero_destinations_report wStoreNoDest wCfg 1 wSub (fun _ => false)
      (by decide) (by decide) (by decide) (by decide)⟩

theorem pyRstrip_length_le (s : List Char) : (pyRstrip s).length ≤ s.length := by
  simp only [pyRstrip, List.length_reverse]
  calc (s.reverse.dropWhile pyIsSpace).length ≤ s.reverse.length :=
        (List.dropWhile_sublist _).length_le
    _ = s.length := by simp

/-- C8 (amended): fan-out media deliveries send `safe_caption` of the stored
text: the caption is stripped; when the stripped caption exceeds 950
characters it is cut to 950, right-stripped, and a visible ellipsis is
appended, for a total of at most 953; at or under the limit the stripped
caption is sent as is.  The intake notification to the owner, in contrast,
carries the full caption untruncated after the header. -/
theorem C8_caption_truncation (t : List Char) (sid : Nat) (d : Int × Int)
    (fid : Option String) (st : Store) (cfg : HostedCfg) (uid : Int) (f : String)
    (cap : List Char) (msgId : Nat) :
    ((pyStrip t).length ≤ 950 → safe_caption t = pyStrip t) ∧
    (950 < (pyStrip t).length →
      safe_caption t = pyRstrip ((pyStrip t).take 950) ++ ['.', '.', '.'] ∧
      (safe_caption t).length ≤ 953 ∧ ['.', '.', '.'] <:+ safe_caption t) ∧
    send_to_dest sid d "photo" fid t = [Effect.destPhoto sid d fid (safe_caption t)] ∧
    send_to_dest sid d "video" fid t = [Effect.destVideo sid d fid (safe_caption t)] ∧
    (uid ≠ cfg.owner_id → cap ≠ [] →
      (hosted_user_dm st cfg uid (DmMsg.photo f cap) msgId).2.filterMap notifBody
        = [notifHeader st.next_sub_id "PHOTO" ++ '\n' :: '\n' :: cap]) := by
  refine ⟨?_, ?_, ?_, ?_, ?_⟩
  · intro h
    simp only [safe_caption]
    rw [if_neg (by omega)]
  · intro h
    have heq : safe_caption t = pyRstrip ((pyStrip t).take 950) ++ ['.', '.', '.'] := by
      simp only [safe_caption]
      rw [if_pos (by omega)]
    refine ⟨heq, ?_, ?_⟩
    · rw [heq, List.length_append]
      have h1 := pyRstrip_length_le ((pyStrip t).take 950)
      have h2 : ((pyStrip t).take 950).length ≤ 950 := by
        rw [List.length_take]
        omega
      simp only [List.length_cons, List.length_nil]
      omega
    · rw [heq]
      exact List.suffix_append _ _
  · simp [send_to_dest]
  · simp [send_to_dest]
  · intro hu hcap
    by_cases hi : intro_shown st cfg.bot_id uid = true <;>
      simp [hosted_user_dm, hi, hu, hcap, create_submission, map_admin_msg, notifBody,
        mark_intro_shown]

/-- Witness for C8 (amended) at an over-limit caption and a concrete intake. -/
theorem C8_caption_truncation_witness :
    (950 < (pyStrip (List.replicate 960 'a')).length ∧
      (safe_caption (List.replicate 960 'a')).length ≤ 953 ∧
      ['.', '.', '.'] <:+ safe_caption (List.replicate 960 'a')) ∧
    ((5 : Int) ≠ wCfg.owner_id ∧ (['h', 'i'] : List Char) ≠ [] ∧
      (hosted_user_dm emptyStore wCfg 5 (DmMsg.photo "file" ['h', 'i']) 10).2.filterMap
        notifBody = [notifHeader 1 "PHOTO" ++ '\n' :: '\n' :: ['h', 'i']]) := by
  have h := C8_caption_truncation (List.replicate 960 'a') 1 (200, 0) none emptyStore
    wCfg 5 "file" ['h', 'i'] 10
  have hlen : 950 < (pyStrip (List.replicate 960 'a')).length := by decide
  have hb := h.2.1 hlen
  exact ⟨⟨hlen, hb.2.1, hb.2.2⟩, by decide, by decide, h.2.2.2.2 (by decide) (by decide)⟩

/-- Counterexample to C8 as stated: at intake, a photo caption of 960
characters (over the 950 limit) is forwarded to the owner verbatim after the
header, 1019 characters in total, with no truncation to the 953-character
maximum of safe_caption and no ellipsis marker. -/
theorem C8_caption_truncation_counterexample :
    (hosted_user_dm emptyStore wCfg 5
        (DmMsg.photo "file" (List.replicate 960 'a')) 10).2.filterMap notifBody
      = [notifHeader 1 "PHOTO" ++ '\n' :: '\n' :: List.replicate 960 'a'] ∧
    (hosted_user_dm emptyStore wCfg 5
        (DmMsg.photo "file" (List.replicate 960 'a')) 10).2.filterMap notifBodyLen
      = [1019] ∧
    950 < (List.replicate 960 'a').length ∧ 953 < 1019 := by
  refine ⟨by rfl, by rfl, by decide, by decide⟩

/-! ## Main platform bot: token intake (lines 41 and 692-723 of src/main.py) -/

/-- Characters of the credential tail class of TOKEN_RE. -/
def isTokenTailChar (c : Char) : Bool := c.isAlphanum || c == '_' || c == '-'

/-- Embedding of the TOKEN_RE full match: 5 to 20 digits, a colon, then at
least 20 tail characters. -/
def TOKEN_RE_match (s : List Char) : Bool :=
  let digits := s.takeWhile Char.isDigit
  decide (5 ≤ digits.length) && decide (digits.length ≤ 20) &&
    match s.dropWhile Char.isDigit with
    | ':' :: tail => decide (20 ≤ tail.length) && tail.all isTokenTailChar
    | _ => false

/-- Result of the gateway identify call (get_me). -/
structure BotIdentity where
  id : Int
  username : String
deriving DecidableEq, Repr

/-- The invalid-format reply of `main_receive_token`. -/
def invalidTokenMsg : String :=
  "❌ Invalid token format. Click Add Bot again and paste the correct token."

/-- Embedding of `main_receive_token`: when a token is awaited, strip the
text, check the format, then validate against the gateway (`gw` is the
outcome of the get_me call); only on success is the hosted bot persisted.
Returns the new store, the new awaiting_token flag, and the replies. -/
def main_receive_token (st : Store) (uid : Int) (awaiting : Bool) (text : List Char)
    (gw : Except String BotIdentity) (key : List Nat) (ts : Nat) :
    Store × Bool × List Effect :=
  if ¬ awaiting then (st, awaiting, [])
  else
    let token := pyStrip text
    if ¬ TOKEN_RE_match token then (st, false, [Effect.replyText uid invalidTokenMsg])
    else
      match gw with
      | Except.error e => (st, false, [Effect.replyText uid ("❌ Token failed: " ++ e)])
      | Except.ok me =>
        (add_hosted_bot st uid me.id me.username (token.map Char.toNat) key ts, false,
          [Effect.replyText uid ("✅ Bot hosted!\n\nYour bot: @" ++ me.username ++
            "\n\nNow open @" ++ me.username ++ " and press /start.\n" ++
            "As owner, you will see: Connect to group / My groups / Disconnect bot.")])

/-- C5: registerWorker checks the credential format, then the gateway; on a
malformed format or a gateway rejection a descriptive error is replied and
the store is unchanged; on success the worker row is persisted (replacing any
previous row of the same owner and bot) with active = true, the other tables
untouched. -/
theorem C5_register_worker (st : Store) (uid : Int) (text : List Char)
    (gw : Except String BotIdentity) (key : List Nat) (ts : Nat) :
    (¬ TOKEN_RE_match (pyStrip text) = true →
      main_receive_token st uid true text gw key ts
        = (st, false, [Effect.replyText uid invalidTokenMsg])) ∧
    (∀ e, TOKEN_RE_match (pyStrip text) = true → gw = Except.error e →
      main_receive_token st uid true text gw key ts
        = (st, false, [Effect.replyText uid ("❌ Token failed: " ++ e)])) ∧
    (∀ me, TOKEN_RE_match (pyStrip text) = true → gw = Except.ok me →
      (main_receive_token st uid true text gw key ts).1.hosted_bots
        = (st.hosted_bots.filter
            (fun b => !(b.owner_id == uid && b.bot_id == me.id))) ++
          [{ owner_id := uid, bot_username := me.username, bot_id := me.id,
             token_enc := protect_token ((pyStrip text).map Char.toNat) key,
             active := true, created_ts := ts }] ∧
      (∃ b ∈ (main_receive_token st uid true text gw key ts).1.hosted_bots,
        b.owner_id = uid ∧ b.bot_id = me.id ∧ b.active = true) ∧
      (main_receive_token st uid true text gw key ts).1.hosted_destinations
        = st.hosted_destinations ∧
      (main_receive_token st uid true text gw key ts).1.hosted_submissions
        = st.hosted_submissions ∧
      (main_receive_token st uid true text gw key ts).1.hosted_user_intro
        = st.hosted_user_intro ∧
      (main_receive_token st uid true text gw key ts).1.hosted_admin_map
        = st.hosted_admin_map) := by
  refine ⟨?_, ?_, ?_⟩
  · intro h
    simp [main_receive_token, h]
  · intro e hf hgw
    subst hgw
    simp [main_receive_token, hf]
  · intro me hf hgw
    subst hgw
    have hrun : (main_receive_token st uid true text (Except.ok me) key ts).1
        = add_hosted_bot st uid me.id me.username ((pyStrip text).map Char.toNat) key ts := by
      simp [main_receive_token, hf]
    refine ⟨?_, ?_, ?_, ?_, ?_, ?_⟩
    · rw [hrun]; rfl
    · rw [hrun]
      refine ⟨{
          owner_id := uid
          bot_username := me.username
          bot_id := me.id
          token_enc := protect_token ((pyStrip text).map Char.toNat) key
          active := true
          created_ts := ts }, ?_, rfl, rfl, rfl⟩
      simp [add_hosted_bot]
    all_goals rw [hrun]
    all_goals rfl

/-- Witness for C5: a malformed token leaves the store unchanged; a valid
token with a gateway success persists the active worker row. -/
theorem C5_register_worker_witness :
    (¬ TOKEN_RE_match (pyStrip "bad token".data) = true ∧
      main_receive_token emptyStore 1 true "bad token".data
          (Except.ok ⟨100, "wb"⟩) [] 0
        = (emptyStore, false, [Effect.replyText 1 invalidTokenMsg])) ∧
    (TOKEN_RE_match (pyStrip "12345:aaaaaaaaaaaaaaaaaaaa".data) = true ∧
      (∃ b ∈ (main_receive_token emptyStore 1 true "12345:aaaaaaaaaaaaaaaaaaaa".data
          (Except.ok ⟨100, "wb"⟩) [] 0).1.hosted_bots,
        b.owner_id = 1 ∧ b.bot_id = 100 ∧ b.active = true)) := by
  refine ⟨⟨by decide, ?_⟩, by decide, ?_⟩
  · exact (C5_register_worker emptyStore 1 "bad token".data
      (Except.ok ⟨100, "wb"⟩) [] 0).1 (by decide)
  · exact ((C5_register_worker emptyStore 1 "12345:aaaaaaaaaaaaaaaaaaaa".data
      (Except.ok ⟨100, "wb"⟩) [] 0).2.2 ⟨100, "wb"⟩ (by decide) rfl).2.1

/-! ## Reconciliation lemmas -/

theorem stop_hosted_tasks (r : RunnerState) (b : Int) :
    (stop_hosted r b).tasks = r.tasks.erase b := by
  unfold stop_hosted
  split_ifs with h
  · rfl
  · rw [List.erase_of_not_mem h]

theorem start_hosted_tasks (r : RunnerState) (b : Int) :
    (start_hosted r b).tasks = if b ∈ r.tasks then r.tasks else r.tasks ++ [b] := by
  unfold start_hosted
  split_ifs <;> rfl

theorem syncStops_mem : ∀ (snap ids : List Int) (r : RunnerState), r.tasks.Nodup →
    ∀ x, (x ∈ (syncStops r snap ids).tasks ↔ (x ∈ r.tasks ∧ (x ∈ snap → x ∈ ids))) := by
  intro snap
  induction snap with
  | nil => intro ids r h x; simp [syncStops]
  | cons rid rest ih =>
    intro ids r h x
    by_cases hr : rid ∈ ids
    · rw [show syncStops r (rid :: rest) ids = syncStops r rest ids by
        simp [syncStops, hr]]
      rw [ih ids r h x]
      constructor
      · rintro ⟨h1, h2⟩
        refine ⟨h1, fun hx => ?_⟩
        rcases List.mem_cons.mp hx with he | he
        · exact he ▸ hr
        · exact h2 he
      · rintro ⟨h1, h2⟩
        exact ⟨h1, fun hx => h2 (List.mem_cons_of_mem _ hx)⟩
    · rw [show syncStops r (rid :: rest) ids = syncStops (stop_hosted r rid) rest ids by
        simp [syncStops, hr]]
      have ht : (stop_hosted r rid).tasks = r.tasks.erase rid := stop_hosted_tasks r rid
      have hnd : (stop_hosted r rid).tasks.Nodup := by
        rw [ht]
        exact h.erase _
      rw [ih ids _ hnd x, ht, h.mem_erase_iff]
      constructor
      · rintro ⟨⟨hne, h1⟩, h2⟩
        refine ⟨h1, fun hx => ?_⟩
        rcases List.mem_cons.mp hx with he | he
        · exact absurd he hne
        · exact h2 he
      · rintro ⟨h1, h2⟩
        have hne : x ≠ rid := by
          intro he
          exact hr (he ▸ h2 (by simp [he]))
        exact ⟨⟨hne, h1⟩, fun hx => h2 (List.mem_cons_of_mem _ hx)⟩

theorem syncStops_nodup : ∀ (snap ids : List Int) (r : RunnerState), r.tasks.Nodup →
    (syncStops r snap ids).tasks.Nodup := by
  intro snap
  induction snap with
  | nil => intro ids r h; simpa [syncStops] using h
  | cons rid rest ih =>
    intro ids r h
    by_cases hr : rid ∈ ids
    · rw [show syncStops r (rid :: rest) ids = syncStops r rest ids by
        simp [syncStops, hr]]
      exact ih ids r h
    · rw [show syncStops r (rid :: rest) ids = syncStops (stop_hosted r rid) rest ids by
        simp [syncStops, hr]]
      apply ih
      rw [stop_hosted_tasks]
      exact h.erase _

theorem syncStarts_nodup : ∀ (active : List (Int × Int)) (r : RunnerState),
    r.tasks.Nodup → (syncStarts r active).tasks.Nodup := by
  intro active
  induction active with
  | nil => intro r h; simpa [syncStarts] using h
  | cons b rest ih =>
    intro r h
    by_cases hb : b.2 ∈ r.tasks
    · rw [show syncStarts r (b :: rest) = syncStarts r rest by simp [syncStarts, hb]]
      exact ih r h
    · rw [show syncStarts r (b :: rest) = syncStarts (start_hosted r b.2) rest by
        simp [syncStarts, hb]]
      apply ih
      rw [start_hosted_tasks, if_neg hb]
      rw [List.nodup_append]
      refine ⟨h, List.nodup_singleton _, ?_⟩
      intro a ha hmem
      rw [List.mem_singleton] at hmem
      exact hb (hmem ▸ ha)

theorem syncStarts_mem : ∀ (active : List (Int × Int)) (r : RunnerState), r.tasks.Nodup →
    ∀ x, (x ∈ (syncStarts r active).tasks ↔
      x ∈ r.tasks ∨ x ∈ active.map (fun b => b.2)) := by
  intro active
  induction active with
  | nil => intro r h x; simp [syncStarts]
  | cons b rest ih =>
    intro r h x
    by_cases hb : b.2 ∈ r.tasks
    · rw [show syncStarts r (b :: rest) = syncStarts r rest by simp [syncStarts, hb]]
      rw [ih r h x]
      simp only [List.map_cons, List.mem_cons]
      constructor
      · rintro (h1 | h1)
        · exact Or.inl h1
        · exact Or.inr (Or.inr h1)
      · rintro (h1 | h1 | h1)
        · exact Or.inl h1
        · exact Or.inl (h1 ▸ hb)
        · exact Or.inr h1
    · rw [show syncStarts r (b :: rest) = syncStarts (start_hosted r b.2) rest by
        simp [syncStarts, hb]]
      have hnd : (start_hosted r b.2).tasks.Nodup := by
        rw [start_hosted_tasks, if_neg hb, List.nodup_append]
        refine ⟨h, List.nodup_singleton _, ?_⟩
        intro a ha hmem
        rw [List.mem_singleton] at hmem
        exact hb (hmem ▸ ha)
      rw [ih _ hnd x, start_hosted_tasks, if_neg hb]
      simp only [List.mem_append, List.mem_singleton, List.map_cons, List.mem_cons]
      tauto

theorem syncStops_noop : ∀ (snap ids : List Int) (r : RunnerState),
    (∀ x ∈ snap, x ∈ ids) → syncStops r snap ids = r := by
  intro snap
  induction snap with
  | nil => intro ids r _; rfl
  | cons rid rest ih =>
    intro ids r h
    rw [show syncStops r (rid :: rest) ids = syncStops r rest ids by
      simp [syncStops, h rid (by simp)]]
    exact ih ids r (fun x hx => h x (by simp [hx]))

theorem syncStarts_noop : ∀ (active : List (Int × Int)) (r : RunnerState),
    (∀ b ∈ active, b.2 ∈ r.tasks) → syncStarts r active = r := by
  intro active
  induction active with
  | nil => intro r _; rfl
  | cons b rest ih =>
    intro r h
    rw [show syncStarts r (b :: rest) = syncStarts r rest by
      simp [syncStarts, h b (by simp)]]
    exact ih r (fun x hx => h x (by simp [hx]))

/-- C2: one reconciliation pass makes the running set equal to the bots
marked active in the store (running bots not in the desired set are stopped,
desired bots not running are started), and a second pass with the store
unchanged is a no-op: the whole runner state, start and stop logs included,
stays exactly the same. -/
theorem C2_reconcile_converges (r : RunnerState) (st : Store) (h : r.tasks.Nodup) :
    (∀ x, x ∈ (sync_from_db r st).tasks ↔
      x ∈ (list_all_active_bots st).map (fun b => b.2)) ∧
    sync_from_db (sync_from_db r st) st = sync_from_db r st := by
  have hstopnd := syncStops_nodup r.tasks
    ((list_all_active_bots st).map (fun b => b.2)) r h
  have hmem : ∀ x, x ∈ (sync_from_db r st).tasks ↔
      x ∈ (list_all_active_bots st).map (fun b => b.2) := by
    intro x
    unfold sync_from_db
    rw [syncStarts_mem _ _ hstopnd x,
      syncStops_mem _ _ _ h x]
    constructor
    · rintro (⟨_, h2⟩ | h1)
      · exact h2 (by assumption)
      · exact h1
    · intro h1
      exact Or.inr h1
  refine ⟨hmem, ?_⟩
  have hstep : sync_from_db (sync_from_db r st) st
      = syncStarts (syncStops (sync_from_db r st) (sync_from_db r st).tasks
          ((list_all_active_bots st).map (fun b => b.2))) (list_all_active_bots st) := rfl
  rw [hstep,
    syncStops_noop _ _ _ (fun x hx => (hmem x).mp hx),
    syncStarts_noop _ _ (fun b hb => (hmem b.2).mpr (List.mem_map_of_mem _ hb))]

def wRun : RunnerState := { apps := [5], tasks := [5], startLog := [], stopLog := [] }

/-- Witness for C2: from a runner polling bot 5 with desired set containing
only bot 100, one pass runs exactly bot 100 and a second pass is a no-op. -/
theorem C2_reconcile_converges_witness :
    (([5] : List Int).Nodup ∧
      ((100 : Int) ∈ (sync_from_db wRun wStore).tasks ↔
        (100 : Int) ∈ (list_all_active_bots wStore).map (fun b => b.2)) ∧
      ((5 : Int) ∈ (sync_from_db wRun wStore).tasks ↔
        (5 : Int) ∈ (list_all_active_bots wStore).map (fun b => b.2))) ∧
    sync_from_db (sync_from_db wRun wStore) wStore = sync_from_db wRun wStore := by
  have h := C2_reconcile_converges wRun wStore (by decide)
  exact ⟨⟨by decide, h.1 100, h.1 5⟩, h.2⟩

/-! ## Submission status lemmas -/

theorem find_map_set (l : List SubRow) (sid : Nat) (s : String) :
    (l.map (fun r => if r.id == sid then { r with status := s } else r)).find?
        (fun r => r.id == sid)
      = (l.find? (fun r => r.id == sid)).map (fun r => { r with status := s }) := by
  induction l with
  | nil => rfl
  | cons a t ih =>
    by_cases ha : a.id = sid
    · simp [List.find?_cons, ha, -List.find?_map]
    · simp [List.find?_cons, ha, -List.find?_map] at ih ⊢
      try exact ih

theorem find_map_set_other (l : List SubRow) (sid sid2 : Nat) (s : String)
    (hne : sid2 ≠ sid) :
    (l.map (fun r => if r.id == sid2 then { r with status := s } else r)).find?
        (fun r => r.id == sid)
      = l.find? (fun r => r.id == sid) := by
  induction l with
  | nil => rfl
  | cons a t ih =>
    by_cases h2 : a.id = sid2
    · have hns : ¬ a.id = sid := by
        rw [h2]
        exact hne
      simp [List.find?_cons, h2, hns, hne, -List.find?_map] at ih ⊢
      try exact ih
    · by_cases hs : a.id = sid
      · simp [List.find?_cons, h2, hs, Ne.symm hne, -List.find?_map]
      · simp [List.find?_cons, h2, hs, -List.find?_map] at ih ⊢
        try exact ih

theorem get_submission_set_same (st : Store) (sid : Nat) (s : String) :
    get_submission (set_submission_status st sid s) sid
      = (get_submission st sid).map (fun r => { r with status := s }) := by
  simp only [get_submission, set_submission_status]
  exact find_map_set _ _ _

theorem get_submission_set_other (st : Store) (sid sid2 : Nat) (s : String)
    (hne : sid2 ≠ sid) :
    get_submission (set_submission_status st sid2 s) sid = get_submission st sid := by
  simp only [get_submission, set_submission_status]
  exact find_map_set_other _ _ _ _ hne

theorem har_approve_pending (st : Store) (cfg : HostedCfg) (sid : Nat) (sub : SubRow)
    (f : Int × Int → Bool)
    (h1 : get_submission st sid = some sub) (h2 : sub.bot_id = cfg.bot_id)
    (h3 : sub.status = "pending") :
    hosted_approve_reject st cfg cfg.owner_id "approve" sid f
      = (set_submission_status st sid "approved",
        [Effect.answer "Approved." false, Effect.clearMarkup] ++
          (if list_destinations st cfg.bot_id = []
           then [Effect.replyText cfg.owner_id noDestMsg]
           else fanout sid (list_destinations st cfg.bot_id) sub.kind sub.file_id
             (pyStrip sub.text) f)) := by
  simp only [hosted_approve_reject, h1, h2, h3, list_destinations_set_status]
  split_ifs <;> simp_all

/-- C1: the approve and reject actions are rejected with a visible error and
without any state change when the actor is not the owner, the submission does
not exist, it belongs to another bot, or it is no longer pending (the error
then naming the existing terminal status); and approving twice delivers the
content exactly once: the first approve fans out to each non-failing active
destination, the second leaves the store unchanged and reports
"Already approved." with no delivery. -/
theorem C1_moderation_guards (st : Store) (cfg : HostedCfg) (u : Int) (act : String)
    (sid : Nat) (f f2 : Int × Int → Bool) :
    (u ≠ cfg.owner_id →
      hosted_approve_reject st cfg u act sid f
        = (st, [Effect.answer "Owner only." true])) ∧
    (get_submission st sid = none →
      hosted_approve_reject st cfg cfg.owner_id act sid f
        = (st, [Effect.answer "Not found." true])) ∧
    (∀ sub, get_submission st sid = some sub → sub.bot_id ≠ cfg.bot_id →
      hosted_approve_reject st cfg cfg.owner_id act sid f
        = (st, [Effect.answer "Not found." true])) ∧
    (∀ sub, get_submission st sid = some sub → sub.bot_id = cfg.bot_id →
      sub.status ≠ "pending" →
      hosted_approve_reject st cfg cfg.owner_id act sid f
        = (st, [Effect.answer ("Already " ++ sub.status ++ ".") true])) ∧
    (∀ sub, get_submission st sid = some sub → sub.bot_id = cfg.bot_id →
      sub.status = "pending" →
      (sub.kind = "text" ∨ sub.kind = "photo" ∨ sub.kind = "video") →
      deliveriesFor sid (hosted_approve_reject st cfg cfg.owner_id "approve" sid f).2
          = (list_destinations st cfg.bot_id).filter (fun d => !f d) ∧
      hosted_approve_reject (hosted_approve_reject st cfg cfg.owner_id "approve" sid f).1
          cfg cfg.owner_id "approve" sid f2
        = ((hosted_approve_reject st cfg cfg.owner_id "approve" sid f).1,
          [Effect.answer "Already approved." true])) := by
  refine ⟨?_, ?_, ?_, ?_, ?_⟩
  · intro h
    simp [hosted_approve_reject, h]
  · intro h
    simp [hosted_approve_reject, h]
  · intro sub h1 h2
    simp [hosted_approve_reject, h1, h2]
  · intro sub h1 h2 h3
    simp [hosted_approve_reject, h1, h2, h3]
  · intro sub h1 h2 h3 hk
    have hfst := har_approve_pending st cfg sid sub f h1 h2 h3
    constructor
    · rw [hfst]
      by_cases hd : list_destinations st cfg.bot_id = []
      · simp [hd, deliveriesFor]
      · rw [if_neg hd]
        rw [deliveriesFor_append, deliveriesFor_fanout sid _ _ _ _ _ hk]
        simp [deliveriesFor]
    · set st1 := (hosted_approve_reject st cfg cfg.owner_id "approve" sid f).1 with hst1
      have hget : get_submission st1 sid = some { sub with status := "approved" } := by
        rw [hst1, hfst]
        show get_submission (set_submission_status st sid "approved") sid = _
        rw [get_submission_set_same, h1]
        rfl
      simp [hosted_approve_reject, hget, h2]

/-- Witness for C1: in the concrete store, approving pending submission 1
twice delivers once to the single destination and the second invocation
reports "Already approved." without touching the store. -/
theorem C1_moderation_guards_witness :
    deliveriesFor 1 (hosted_approve_reject wStore wCfg wCfg.owner_id "approve" 1
        (fun _ => false)).2
      = (list_destinations wStore wCfg.bot_id).filter (fun _ => !false) ∧
    hosted_approve_reject (hosted_approve_reject wStore wCfg wCfg.owner_id "approve" 1
        (fun _ => false)).1 wCfg wCfg.owner_id "approve" 1 (fun _ => false)
      = ((hosted_approve_reject wStore wCfg wCfg.owner_id "approve" 1
          (fun _ => false)).1,
        [Effect.answer "Already approved." true]) :=
  (C1_moderation_guards wStore wCfg 2 "approve" 1 (fun _ => false)
      (fun _ => false)).2.2.2.2 wSub (by decide) (by decide) (by decide)
    (Or.inl (by decide))

/-! ## Intro-once lemmas -/

/-- Potential of the persisted intro flag: 1 while the intro can still be
sent, 0 once the flag exists. -/
def introPot (st : Store) (b u : Int) : Nat :=
  if intro_shown st b u = true then 0 else 1

theorem intro_shown_mark_self (st : Store) (b u : Int) :
    intro_shown (mark_intro_shown st b u) b u = true := by
  simp [intro_shown, mark_intro_shown, List.any_append]

theorem intro_shown_mark_mono (st : Store) (b u b2 u2 : Int)
    (h : intro_shown st b2 u2 = true) :
    intro_shown (mark_intro_shown st b u) b2 u2 = true := by
  unfold intro_shown at h ⊢
  rcases List.any_eq_true.mp h with ⟨x, hx, hpred⟩
  simp only [Bool.and_eq_true, beq_iff_eq] at hpred
  apply List.any_eq_true.mpr
  by_cases hxbu : x.1 = b ∧ x.2 = u
  · refine ⟨(b, u), by simp [mark_intro_shown], ?_⟩
    simp only [Bool.and_eq_true, beq_iff_eq]
    obtain ⟨hx1, hx2⟩ := hxbu
    obtain ⟨hp1, hp2⟩ := hpred
    constructor <;> omega
  · refine ⟨x, ?_, by simp only [Bool.and_eq_true, beq_iff_eq]; exact hpred⟩
    simp only [mark_intro_shown, List.mem_append, List.mem_filter]
    left
    refine ⟨hx, ?_⟩
    have : ¬x.1 = b ∨ ¬x.2 = u := not_and_or.mp hxbu
    simpa using this

theorem intro_shown_set_status (st : Store) (sid : Nat) (s : String) (b u : Int) :
    intro_shown (set_submission_status st sid s) b u = intro_shown st b u := rfl

theorem intro_shown_upsert (st : Store) (bid c t : Int) (ts : Nat) (b u : Int) :
    intro_shown (upsert_destination st bid c t ts) b u = intro_shown st b u := rfl

theorem intro_shown_set_active (st : Store) (o bid : Int) (a : Bool) (b u : Int) :
    intro_shown (set_hosted_bot_active st o bid a) b u = intro_shown st b u := rfl

theorem intro_shown_create (st : Store) (bid o uu : Int) (k : String)
    (fi : Option String) (tx : List Char) (b u : Int) :
    intro_shown (create_submission st bid o uu k fi tx).2 b u = intro_shown st b u := rfl

theorem intro_shown_map_admin (st : Store) (bid o : Int) (m s : Nat) (b u : Int) :
    intro_shown (map_admin_msg st bid o m s) b u = intro_shown st b u := rfl

theorem countIntro_fanout (uid : Int) (sid : Nat) (dests : List (Int × Int))
    (kind : String) (fid : Option String) (txt : List Char) (f : Int × Int → Bool) :
    countIntro uid (fanout sid dests kind fid txt f) = 0 := by
  induction dests with
  | nil => rfl
  | cons d rest ih =>
    rw [fanout, countIntro_append, ih]
    by_cases hd : f d = true
    · simp [hd, countIntro]
    · simp only [Bool.not_eq_true] at hd
      simp only [hd, Bool.false_eq_true, if_false]
      unfold send_to_dest
      split_ifs <;> simp [countIntro]

theorem countIntro_nil (uid : Int) : countIntro uid [] = 0 := rfl

theorem hosted_start_intro (st : Store) (cfg : HostedCfg) (u uid : Int) :
    countIntro uid (hosted_start st cfg u).2
      + introPot (hosted_start st cfg u).1 cfg.bot_id uid
      ≤ introPot st cfg.bot_id uid := by
  unfold hosted_start
  by_cases hu : intro_shown st cfg.bot_id u = true
  · simp only [hu, if_true]
    split_ifs <;> simp [countIntro_append, countIntro, introPot]
  · simp only [Bool.not_eq_true] at hu
    simp only [hu, Bool.false_eq_true, if_false]
    by_cases huid : u = uid
    · subst huid
      have hmark := intro_shown_mark_self st cfg.bot_id u
      split_ifs <;>
        simp [countIntro_append, countIntro, introPot, hmark, hu]
    · by_cases hshown : intro_shown st cfg.bot_id uid = true
      · have hmark := intro_shown_mark_mono st cfg.bot_id u cfg.bot_id uid hshown
        split_ifs <;>
          simp [countIntro_append, countIntro, introPot, hmark, hshown, huid]
      · simp only [Bool.not_eq_true] at hshown
        split_ifs <;>
          simp [countIntro_append, countIntro, introPot, hshown, huid] <;>
          split_ifs <;> omega

theorem introPot_map_create (st : Store) (b1 o1 u1 : Int) (k : String)
    (fi : Option String) (tx : List Char) (b2 o2 : Int) (m s : Nat) (bb uu : Int) :
    introPot (map_admin_msg (create_submission st b1 o1 u1 k fi tx).2 b2 o2 m s) bb uu
      = introPot st bb uu := rfl

theorem hosted_user_dm_intro (st : Store) (cfg : HostedCfg) (u uid : Int)
    (msg : DmMsg) (msgId : Nat) :
    countIntro uid (hosted_user_dm st cfg u msg msgId).2
      + introPot (hosted_user_dm st cfg u msg msgId).1 cfg.bot_id uid
      ≤ introPot st cfg.bot_id uid := by
  unfold hosted_user_dm
  by_cases hu : intro_shown st cfg.bot_id u = true
  · simp only [hu, if_true]
    by_cases how : u = cfg.owner_id
    · simp [how, countIntro, introPot]
    · cases msg with
      | text s =>
        by_cases hg : s ≠ [] ∧ s.head? ≠ some '/'
        · simp [how, hg, countIntro_append, countIntro, introPot_map_create]
        · simp [how, hg, countIntro, introPot]
      | photo fi c => simp [how, countIntro_append, countIntro, introPot_map_create]
      | video fi c => simp [how, countIntro_append, countIntro, introPot_map_create]
      | other => simp [how, countIntro, introPot]
  · simp only [Bool.not_eq_true] at hu
    simp only [hu, Bool.false_eq_true, if_false]
    have hpost : introPot (mark_intro_shown st cfg.bot_id u) cfg.bot_id uid
        + countIntro uid [Effect.replyIntro u] ≤ introPot st cfg.bot_id uid := by
      by_cases huid : u = uid
      · subst huid
        simp [introPot, countIntro, intro_shown_mark_self, hu]
      · by_cases hshown : intro_shown st cfg.bot_id uid = true
        · simp [introPot, countIntro,
            intro_shown_mark_mono st cfg.bot_id u cfg.bot_id uid hshown, hshown, huid]
        · simp only [Bool.not_eq_true] at hshown
          have : introPot (mark_intro_shown st cfg.bot_id u) cfg.bot_id uid ≤ 1 := by
            unfold introPot
            split_ifs <;> omega
          simp only [introPot, hshown, Bool.false_eq_true, if_false, countIntro] at this ⊢
          simp [huid]
          omega
    by_cases how : u = cfg.owner_id
    · rw [if_pos how]
      show countIntro uid [Effect.replyIntro u]
          + introPot (mark_intro_shown st cfg.bot_id u) cfg.bot_id uid
        ≤ introPot st cfg.bot_id uid
      omega
    · cases msg with
      | text s =>
        by_cases hg : s ≠ [] ∧ s.head? ≠ some '/'
        · rw [if_neg how]
          dsimp only
          rw [if_pos hg]
          by_cases huid : u = uid <;>
            simp [countIntro, huid, introPot_map_create] at hpost ⊢ <;>
            omega
        · rw [if_neg how]
          dsimp only
          rw [if_neg hg]
          by_cases huid : u = uid <;>
            simp [countIntro, huid] at hpost ⊢ <;>
            omega
      | photo fi c =>
        rw [if_neg how]
        dsimp only
        by_cases huid : u = uid <;>
          simp [countIntro, huid, introPot_map_create] at hpost ⊢ <;>
          omega
      | video fi c =>
        rw [if_neg how]
        dsimp only
        by_cases huid : u = uid <;>
          simp [countIntro, huid, introPot_map_create] at hpost ⊢ <;>
          omega
      | other =>
        rw [if_neg how]
        dsimp only
        by_cases huid : u = uid <;>
          simp [countIntro, huid] at hpost ⊢ <;>
          omega

theorem hosted_approve_reject_intro (st : Store) (cfg : HostedCfg) (fu : Int)
    (act : String) (sid : Nat) (f : Int × Int → Bool) (uid : Int) :
    countIntro uid (hosted_approve_reject st cfg fu act sid f).2
      + introPot (hosted_approve_reject st cfg fu act sid f).1 cfg.bot_id uid
      ≤ introPot st cfg.bot_id uid := by
  unfold hosted_approve_reject
  by_cases h1 : fu ≠ cfg.owner_id
  · rw [if_pos h1]
    simp [countIntro, introPot]
  · rw [if_neg h1]
    cases hget : get_submission st sid with
    | none => simp [countIntro, introPot]
    | some sub =>
      dsimp only
      by_cases h2 : sub.bot_id ≠ cfg.bot_id
      · rw [if_pos h2]
        simp [countIntro, introPot]
      · rw [if_neg h2]
        by_cases h3 : sub.status ≠ "pending"
        · rw [if_pos h3]
          simp [countIntro, introPot]
        · rw [if_neg h3]
          by_cases h4 : act = "reject"
          · rw [if_pos h4]
            have : introPot (set_submission_status st sid "rejected") cfg.bot_id uid
                = introPot st cfg.bot_id uid := rfl
            simp [countIntro, this]
          · rw [if_neg h4]
            by_cases h5 : act = "approve"
            · rw [if_pos h5]
              have hp : introPot (set_submission_status st sid "approved") cfg.bot_id uid
                  = introPot st cfg.bot_id uid := rfl
              by_cases hd : list_destinations (set_submission_status st sid "approved")
                  cfg.bot_id = []
              · rw [if_pos hd]
                simp [countIntro, hp]
              · rw [if_neg hd]
                show countIntro uid ([Effect.answer "Approved." false, Effect.clearMarkup]
                    ++ fanout sid (list_destinations (set_submission_status st sid
                      "approved") cfg.bot_id) sub.kind sub.file_id (pyStrip sub.text) f)
                    + introPot (set_submission_status st sid "approved") cfg.bot_id uid
                  ≤ introPot st cfg.bot_id uid
                rw [countIntro_append, countIntro_fanout, hp]
                simp [countIntro]
            · rw [if_neg h5]
              simp [countIntro, introPot]

theorem hosted_connect_intro (st : Store) (cfg : HostedCfg) (u c : Int)
    (ct : String) (ia : Bool) (tid : Int) (ts : Nat) (uid : Int) :
    countIntro uid (hosted_connect st cfg u c ct ia tid ts).2
      + introPot (hosted_connect st cfg u c ct ia tid ts).1 cfg.bot_id uid
      ≤ introPot st cfg.bot_id uid := by
  unfold hosted_connect
  have hup : introPot (upsert_destination st cfg.bot_id c tid ts) cfg.bot_id uid
      = introPot st cfg.bot_id uid := rfl
  split_ifs <;> simp [countIntro, hup]

theorem hosted_owner_reply_relay_intro (st : Store) (cfg : HostedCfg) (u : Int)
    (rt : Option Nat) (msg : DmMsg) (uid : Int) :
    countIntro uid (hosted_owner_reply_relay st cfg u rt msg).2
      + introPot (hosted_owner_reply_relay st cfg u rt msg).1 cfg.bot_id uid
      ≤ introPot st cfg.bot_id uid := by
  unfold hosted_owner_reply_relay
  split_ifs <;>
    try simp [countIntro]
  all_goals cases rt <;> try simp [countIntro]
  all_goals rename_i rid
  all_goals cases submission_from_admin_reply st cfg.bot_id cfg.owner_id rid <;>
    try simp [countIntro]
  all_goals rename_i sid
  all_goals split_ifs <;> try simp [countIntro]
  all_goals cases get_submission st sid <;> try simp [countIntro]
  all_goals rename_i sub
  all_goals split_ifs <;> try simp [countIntro]
  all_goals cases msg <;> try simp [countIntro]
  all_goals split_ifs <;> simp [countIntro]

theorem hosted_owner_buttons_intro (st : Store) (cfg : HostedCfg) (u : Int)
    (data : String) (uid : Int) :
    countIntro uid (hosted_owner_buttons st cfg u data).2
      + introPot (hosted_owner_buttons st cfg u data).1 cfg.bot_id uid
      ≤ introPot st cfg.bot_id uid := by
  unfold hosted_owner_buttons
  have hset : introPot (set_hosted_bot_active st cfg.owner_id cfg.bot_id false)
      cfg.bot_id uid = introPot st cfg.bot_id uid := rfl
  split_ifs <;> simp [countIntro, hset]

theorem hstep_intro (cfg : HostedCfg) (st : Store) (e : HEvent) (uid : Int) :
    countIntro uid (hstep cfg st e).2 + introPot (hstep cfg st e).1 cfg.bot_id uid
      ≤ introPot st cfg.bot_id uid := by
  cases e with
  | start u => exact hosted_start_intro st cfg u uid
  | dm u msg msgId => exact hosted_user_dm_intro st cfg u uid msg msgId
  | action u act sid f => exact hosted_approve_reject_intro st cfg u act sid f uid
  | buttons u data => exact hosted_owner_buttons_intro st cfg u data uid
  | connect u c ct ia tid ts => exact hosted_connect_intro st cfg u c ct ia tid ts uid
  | reply u rt msg => exact hosted_owner_reply_relay_intro st cfg u rt msg uid

theorem runEvents_intro (cfg : HostedCfg) (st : Store) (evs : List HEvent) (uid : Int) :
    countIntro uid (runEvents cfg st evs).2
      + introPot (runEvents cfg st evs).1 cfg.bot_id uid
      ≤ introPot st cfg.bot_id uid := by
  induction evs generalizing st with
  | nil => simp [runEvents, countIntro, introPot]
  | cons e rest ih =>
    show countIntro uid ((hstep cfg st e).2 ++ (runEvents cfg (hstep cfg st e).1 rest).2)
        + introPot (runEvents cfg (hstep cfg st e).1 rest).1 cfg.bot_id uid
      ≤ introPot st cfg.bot_id uid
    rw [countIntro_append]
    have h1 := hstep_intro cfg st e uid
    have h2 := ih (hstep cfg st e).1
    omega

/-- C6: across any sequence of inbound events of one hosted bot, the fixed
introduction text is sent to a given user at most once, guarded by the
persisted intro flag. -/
theorem C6_intro_at_most_once (cfg : HostedCfg) (st : Store) (uid : Int)
    (evs : List HEvent) :
    countIntro uid (runEvents cfg st evs).2 ≤ 1 := by
  have h := runEvents_intro cfg st evs uid
  unfold introPot at h
  split_ifs at h <;> omega

/-! ## Approved submissions stay approved and are never delivered again -/

/-- Well-formedness of the AUTOINCREMENT counter: every stored submission id
is below the next id. -/
def SubIdsFresh (st : Store) : Prop :=
  ∀ r ∈ st.hosted_submissions, r.id < st.next_sub_id

/-- The status column of one submission. -/
def subStatus (st : Store) (sid : Nat) : Option String :=
  (get_submission st sid).map (fun r => r.status)

theorem subStatus_mark (st : Store) (b u : Int) (sid : Nat) :
    subStatus (mark_intro_shown st b u) sid = subStatus st sid := rfl

theorem subStatus_map_admin (st : Store) (b o : Int) (m s sid : Nat) :
    subStatus (map_admin_msg st b o m s) sid = subStatus st sid := rfl

theorem subStatus_upsert (st : Store) (b c t : Int) (ts : Nat) (sid : Nat) :
    subStatus (upsert_destination st b c t ts) sid = subStatus st sid := rfl

theorem subStatus_set_active (st : Store) (o b : Int) (a : Bool) (sid : Nat) :
    subStatus (set_hosted_bot_active st o b a) sid = subStatus st sid := rfl

theorem subStatus_set_other (st : Store) (sid sid2 : Nat) (s : String)
    (hne : sid2 ≠ sid) :
    subStatus (set_submission_status st sid2 s) sid = subStatus st sid := by
  unfold subStatus
  rw [get_submission_set_other st sid sid2 s hne]

theorem subStatus_create (st : Store) (b o u : Int) (k : String) (fi : Option String)
    (tx : List Char) (sid : Nat) (hne : sid ≠ st.next_sub_id) :
    subStatus (create_submission st b o u k fi tx).2 sid = subStatus st sid := by
  unfold subStatus get_submission create_submission
  simp only [List.find?_append, List.find?_cons]
  have : (st.next_sub_id == sid) = false := by
    simp only [beq_eq_false_iff_ne, ne_eq]
    exact fun h => hne h.symm
  simp [this]

theorem fresh_set_status (st : Store) (sid : Nat) (s : String) (h : SubIdsFresh st) :
    SubIdsFresh (set_submission_status st sid s) := by
  intro r hr
  simp only [set_submission_status, List.mem_map] at hr
  obtain ⟨r2, hr2, heq⟩ := hr
  subst heq
  show _ < st.next_sub_id
  split_ifs <;> simpa using h r2 hr2

theorem fresh_create (st : Store) (b o u : Int) (k : String) (fi : Option String)
    (tx : List Char) (h : SubIdsFresh st) :
    SubIdsFresh (create_submission st b o u k fi tx).2 := by
  intro r hr
  simp only [create_submission, List.mem_append, List.mem_singleton] at hr
  show _ < st.next_sub_id + 1
  rcases hr with hr | hr
  · exact Nat.lt_succ_of_lt (h r hr)
  · subst hr
    exact Nat.lt_succ_self _

theorem subStatus_lt (st : Store) (sid : Nat) (s : String) (hf : SubIdsFresh st)
    (hs : subStatus st sid = some s) : sid < st.next_sub_id := by
  unfold subStatus get_submission at hs
  cases hget : st.hosted_submissions.find? (fun r => r.id == sid) with
  | none => rw [hget] at hs; simp at hs
  | some r =>
    have hmem := List.mem_of_find?_eq_some hget
    have hid := List.find?_some hget
    simp only [beq_iff_eq] at hid
    exact hid ▸ hf r hmem

theorem hstep_approved (cfg : HostedCfg) (st : Store) (e : HEvent) (sid : Nat)
    (hf : SubIdsFresh st) (hs : subStatus st sid = some "approved") :
    SubIdsFresh (hstep cfg st e).1 ∧
    subStatus (hstep cfg st e).1 sid = some "approved" ∧
    deliveriesFor sid (hstep cfg st e).2 = [] := by
  cases e with
  | start u =>
    dsimp only [hstep]
    unfold hosted_start
    dsimp only
    split_ifs <;> exact ⟨hf, hs, by simp [deliveriesFor]⟩
  | dm u msg msgId =>
    dsimp only [hstep]
    unfold hosted_user_dm
    dsimp only
    have hlt : sid < st.next_sub_id := subStatus_lt st sid _ hf hs
    have hne : sid ≠ st.next_sub_id := Nat.ne_of_lt hlt
    cases msg with
    | text s =>
      dsimp only
      by_cases hg : s ≠ [] ∧ s.head? ≠ some '/'
      · rw [if_pos hg]
        split_ifs <;>
          refine ⟨?_, ?_, by simp [deliveriesFor]⟩ <;>
          first
            | exact hf
            | exact hs
            | exact fresh_create _ _ _ _ _ _ _ hf
            | (dsimp only
               rw [subStatus_map_admin, subStatus_create st _ _ _ _ _ _ _ hne]
               exact hs)
            | (dsimp only
               rw [subStatus_map_admin,
                 subStatus_create (mark_intro_shown st cfg.bot_id u) _ _ _ _ _ _ _ hne]
               exact hs)
      · rw [if_neg hg]
        split_ifs <;> exact ⟨hf, hs, by simp [deliveriesFor]⟩
    | photo fi cap =>
      dsimp only
      split_ifs <;>
        refine ⟨?_, ?_, by simp [deliveriesFor]⟩ <;>
        first
          | exact hf
          | exact hs
          | exact fresh_create _ _ _ _ _ _ _ hf
          | (dsimp only
             rw [subStatus_map_admin, subStatus_create st _ _ _ _ _ _ _ hne]
             exact hs)
          | (dsimp only
             rw [subStatus_map_admin,
               subStatus_create (mark_intro_shown st cfg.bot_id u) _ _ _ _ _ _ _ hne]
             exact hs)
    | video fi cap =>
      dsimp only
      split_ifs <;>
        refine ⟨?_, ?_, by simp [deliveriesFor]⟩ <;>
        first
          | exact hf
          | exact hs
          | exact fresh_create _ _ _ _ _ _ _ hf
          | (dsimp only
             rw [subStatus_map_admin, subStatus_create st _ _ _ _ _ _ _ hne]
             exact hs)
          | (dsimp only
             rw [subStatus_map_admin,
               subStatus_create (mark_intro_shown st cfg.bot_id u) _ _ _ _ _ _ _ hne]
             exact hs)
    | other =>
      dsimp only
      split_ifs <;> exact ⟨hf, hs, by simp [deliveriesFor]⟩
  | action u act sid2 f =>
    dsimp only [hstep]
    unfold hosted_approve_reject
    by_cases h1 : u ≠ cfg.owner_id
    · rw [if_pos h1]
      exact ⟨hf, hs, by simp [deliveriesFor]⟩
    · rw [if_neg h1]
      cases hget : get_submission st sid2 with
      | none => exact ⟨hf, hs, by simp [deliveriesFor]⟩
      | some sub2 =>
        dsimp only
        by_cases h2 : sub2.bot_id ≠ cfg.bot_id
        · rw [if_pos h2]
          exact ⟨hf, hs, by simp [deliveriesFor]⟩
        · rw [if_neg h2]
          by_cases h3 : sub2.status ≠ "pending"
          · rw [if_pos h3]
            exact ⟨hf, hs, by simp [deliveriesFor]⟩
          · rw [if_neg h3]
            push_neg at h3
            have hne2 : sid2 ≠ sid := by
              intro he
              subst he
              unfold subStatus at hs
              rw [hget] at hs
              simp at hs
              rw [h3] at hs
              exact absurd hs (by decide)
            by_cases h4 : act = "reject"
            · rw [if_pos h4]
              exact ⟨fresh_set_status st sid2 _ hf,
                by rw [subStatus_set_other st sid sid2 _ hne2]; exact hs,
                by simp [deliveriesFor]⟩
            · rw [if_neg h4]
              by_cases h5 : act = "approve"
              · rw [if_pos h5]
                by_cases hd : list_destinations (set_submission_status st sid2
                    "approved") cfg.bot_id = []
                · rw [if_pos hd]
                  exact ⟨fresh_set_status st sid2 _ hf,
                    by rw [subStatus_set_other st sid sid2 _ hne2]; exact hs,
                    by simp [deliveriesFor]⟩
                · rw [if_neg hd]
                  refine ⟨fresh_set_status st sid2 _ hf,
                    by rw [subStatus_set_other st sid sid2 _ hne2]; exact hs, ?_⟩
                  show deliveriesFor sid
                      ([Effect.answer "Approved." false, Effect.clearMarkup]
                        ++ fanout sid2 (list_destinations (set_submission_status st sid2
                          "approved") cfg.bot_id) sub2.kind sub2.file_id
                          (pyStrip sub2.text) f) = []
                  rw [deliveriesFor_append,
                    deliveriesFor_fanout_other sid sid2 _ _ _ _ _ hne2]
                  simp [deliveriesFor]
              · rw [if_neg h5]
                exact ⟨hf, hs, rfl⟩
  | buttons u data =>
    dsimp only [hstep]
    unfold hosted_owner_buttons
    split_ifs <;> exact ⟨hf, hs, by simp [deliveriesFor]⟩
  | connect u c ct ia tid ts =>
    dsimp only [hstep]
    unfold hosted_connect
    split_ifs <;> exact ⟨hf, hs, by simp [deliveriesFor]⟩
  | reply u rt msg =>
    dsimp only [hstep]
    unfold hosted_owner_reply_relay
    by_cases h1 : u ≠ cfg.owner_id
    · rw [if_pos h1]
      exact ⟨hf, hs, by simp [deliveriesFor]⟩
    · rw [if_neg h1]
      cases rt with
      | none => exact ⟨hf, hs, by simp [deliveriesFor]⟩
      | some rid =>
        dsimp only
        cases submission_from_admin_reply st cfg.bot_id cfg.owner_id rid with
        | none => exact ⟨hf, hs, by simp [deliveriesFor]⟩
        | some sid3 =>
          dsimp only
          by_cases h2 : sid3 = 0
          · rw [if_pos h2]
            exact ⟨hf, hs, by simp [deliveriesFor]⟩
          · rw [if_neg h2]
            cases get_submission st sid3 with
            | none => exact ⟨hf, hs, by simp [deliveriesFor]⟩
            | some sub3 =>
              dsimp only
              by_cases h3 : sub3.bot_id ≠ cfg.bot_id
              · rw [if_pos h3]
                exact ⟨hf, hs, by simp [deliveriesFor]⟩
              · rw [if_neg h3]
                cases msg with
                | text s =>
                  dsimp only
                  split_ifs <;> exact ⟨hf, hs, by simp [deliveriesFor]⟩
                | photo fi cap => exact ⟨hf, hs, by simp [deliveriesFor]⟩
                | video fi cap => exact ⟨hf, hs, by simp [deliveriesFor]⟩
                | other => exact ⟨hf, hs, by simp [deliveriesFor]⟩

theorem runEvents_approved (cfg : HostedCfg) (st : Store) (evs : List HEvent)
    (sid : Nat) (hf : SubIdsFresh st) (hs : subStatus st sid = some "approved") :
    SubIdsFresh (runEvents cfg st evs).1 ∧
    subStatus (runEvents cfg st evs).1 sid = some "approved" ∧
    deliveriesFor sid (runEvents cfg st evs).2 = [] := by
  induction evs generalizing st with
  | nil => exact ⟨hf, hs, rfl⟩
  | cons e rest ih =>
    have h1 := hstep_approved cfg st e sid hf hs
    have h2 := ih (hstep cfg st e).1 h1.1 h1.2.1
    refine ⟨h2.1, h2.2.1, ?_⟩
    show deliveriesFor sid
        ((hstep cfg st e).2 ++ (runEvents cfg (hstep cfg st e).1 rest).2) = []
    rw [deliveriesFor_append, h1.2.2, h2.2.2]
    rfl

/-- C9: on approve the status is set to approved before the destinations are
consulted, so approving with zero active destinations (or with every delivery
failing) still makes the submission terminally approved, delivers nothing,
and from then on no sequence of further events can ever deliver that
submission: its status stays approved and every later trace is free of
deliveries for it. -/
theorem C9_approved_before_dests (st : Store) (cfg : HostedCfg) (sid : Nat)
    (sub : SubRow) (f : Int × Int → Bool) (hf : SubIdsFresh st)
    (h1 : get_submission st sid = some sub) (h2 : sub.bot_id = cfg.bot_id)
    (h3 : sub.status = "pending") :
    subStatus (hosted_approve_reject st cfg cfg.owner_id "approve" sid f).1 sid
        = some "approved" ∧
    (list_destinations st cfg.bot_id = [] →
      deliveriesFor sid
        (hosted_approve_reject st cfg cfg.owner_id "approve" sid f).2 = []) ∧
    ((∀ d ∈ list_destinations st cfg.bot_id, f d = true) →
      deliveriesFor sid
        (hosted_approve_reject st cfg cfg.owner_id "approve" sid f).2 = []) ∧
    (∀ evs : List HEvent,
      subStatus (runEvents cfg (hosted_approve_reject st cfg cfg.owner_id "approve"
          sid f).1 evs).1 sid = some "approved" ∧
      deliveriesFor sid (runEvents cfg (hosted_approve_reject st cfg cfg.owner_id
          "approve" sid f).1 evs).2 = []) := by
  have hfst := har_approve_pending st cfg sid sub f h1 h2 h3
  have hstat : subStatus (hosted_approve_reject st cfg cfg.owner_id "approve" sid f).1
      sid = some "approved" := by
    rw [hfst]
    show subStatus (set_submission_status st sid "approved") sid = _
    unfold subStatus
    rw [get_submission_set_same, h1]
    rfl
  have hfr : SubIdsFresh
      (hosted_approve_reject st cfg cfg.owner_id "approve" sid f).1 := by
    rw [hfst]
    exact fresh_set_status st sid _ hf
  refine ⟨hstat, ?_, ?_, ?_⟩
  · intro hd
    rw [hfst]
    dsimp only
    rw [if_pos hd]
    simp [deliveriesFor]
  · intro hall
    rw [hfst]
    dsimp only
    by_cases hd : list_destinations st cfg.bot_id = []
    · rw [if_pos hd]
      simp [deliveriesFor]
    · rw [if_neg hd]
      rw [deliveriesFor_append, deliveriesFor_fanout_allfail sid sid _ _ _ _ _ hall]
      simp [deliveriesFor]
  · intro evs
    have h := runEvents_approved cfg _ evs sid hfr hstat
    exact ⟨h.2.1, h.2.2⟩

/-- Witness for C9: approving the concrete pending submission with zero
destinations makes it approved, delivers nothing, and a later approve of it
still delivers nothing. -/
theorem C9_approved_before_dests_witness :
    subStatus (hosted_approve_reject wStoreNoDest wCfg wCfg.owner_id "approve" 1
        (fun _ => false)).1 1 = some "approved" ∧
    deliveriesFor 1 (hosted_approve_reject wStoreNoDest wCfg wCfg.owner_id "approve" 1
        (fun _ => false)).2 = [] ∧
    subStatus (runEvents wCfg (hosted_approve_reject wStoreNoDest wCfg wCfg.owner_id
        "approve" 1 (fun _ => false)).1
        [HEvent.action 1 "approve" 1 (fun _ => false)]).1 1 = some "approved" ∧
    deliveriesFor 1 (runEvents wCfg (hosted_approve_reject wStoreNoDest wCfg
        wCfg.owner_id "approve" 1 (fun _ => false)).1
        [HEvent.action 1 "approve" 1 (fun _ => false)]).2 = [] := by
  have h := C9_approved_before_dests wStoreNoDest wCfg 1 wSub (fun _ => false)
    (by unfold SubIdsFresh; decide) (by decide) (by decide) (by decide)
  have hevs := h.2.2.2 [HEvent.action 1 "approve" 1 (fun _ => false)]
  exact ⟨h.1, h.2.1 (by decide), hevs.1, hevs.2⟩
